import Mathlib

/-!
Verification of the prover pipeline of `src/libindy-crypto/src/cl/prover.rs`.

Shallow embedding conventions:
* `BigNumber` (OpenSSL arbitrary-precision signed integer) is embedded as `Int`;
  `mul`/`add`/`sub` are exact, `mod_exp`/`modulus` take an explicit modulus.
* `i32` values are embedded as `Int` together with an explicit two's-complement
  wrap (`wrap32`) at the one subtraction the source performs on `i32`.
* `HashMap<String, BigNumber>` is embedded as `String → Option Int` (`Smap`);
  `insert` overwrites, `get` is application.
* `HashSet<String>` / `HashSet<u32>` are embedded as `Finset String` / `Finset ℕ`.
* Group/pairing types (`PointG1`, `PointG2`, `Pair`, `GroupOrderElement`) are
  embedded as modules `G1`, `G2`, `GT` over a commutative ring `R` with an
  explicit pairing function `e : G1 → G2 → GT`; the multiplicative notation of
  the source's `Pair` (mul / pow / inverse) becomes additive (+ / • / -).
* Randomness (`bn_rand`, `GroupOrderElement::new`) is passed in explicitly as
  "tape" records, one field per draw of the source.
* Fallible Rust functions returning `Result<_, IndyCryptoError>` become
  `Except IndyCryptoError _`.
-/

/-- Error kinds of the source's `IndyCryptoError` that the prover emits. -/
inductive IndyCryptoError where
  | invalidStructure (msg : String)
  | invalidState (msg : String)
deriving DecidableEq

/-- `HashMap<String, BigNumber>` as a function to `Option Int`. -/
def Smap : Type := String → Option Int

/-- The empty map (`HashMap::new`). -/
def Smap.empty : Smap := fun _ => none

/-- `HashMap::insert`: overwrites the binding of `k`. -/
def Smap.insert (m : Smap) (k : String) (v : Int) : Smap :=
  fun q => if q = k then some v else m q

@[simp]
theorem Smap.insert_same (m : Smap) (k : String) (v : Int) : m.insert k v k = some v := by
  simp [Smap.insert]

@[simp]
theorem Smap.insert_other (m : Smap) (k q : String) (v : Int) (h : q ≠ k) :
    m.insert k v q = m q := by
  simp [Smap.insert, h]

/-- `Predicate::p_type` (only `GE` exists in the source). -/
inductive PredicateType where
  | GE
deriving DecidableEq

/-- `Predicate { attr_name, p_type, value }`; `value` is an `i32` in the source. -/
structure Predicate where
  attr_name : String
  p_type : PredicateType
  value : Int

/-- `ClaimValues { attrs_values: HashMap<String, BigNumber> }`. -/
structure ClaimValues where
  attrs_values : Smap

/-- `ClaimSchema { attrs: HashSet<String> }`. -/
structure ClaimSchema where
  attrs : Finset String

/-- `SubProofRequest { revealed_attrs, predicates }`. -/
structure SubProofRequest where
  revealed_attrs : Finset String
  predicates : List Predicate

/-- `PrimaryClaimSignature { m_2, a, e, v }`. -/
structure PrimaryClaimSignature where
  m_2 : Int
  a : Int
  e : Int
  v : Int

/-- `PrimaryEqualInitProof` (output of `_init_eq_proof`). -/
structure PrimaryEqualInitProof where
  a_prime : Int
  t : Int
  e_tilde : Int
  e_prime : Int
  v_tilde : Int
  v_prime : Int
  m_tilde : Smap
  m1_tilde : Int
  m2_tilde : Int
  m2 : Int

/-- `PrimaryEqualProof` (output of `_finalize_eq_proof`). -/
structure PrimaryEqualProof where
  revealed_attrs : Smap
  a_prime : Int
  e : Int
  v : Int
  m : Smap
  m1 : Int
  m2 : Int

/-- `PrimaryPredicateGEInitProof` (output of `_init_ge_proof`). -/
structure PrimaryPredicateGEInitProof where
  c_list : List Int
  tau_list : List Int
  u : Smap
  u_tilde : Smap
  r : Smap
  r_tilde : Smap
  alpha_tilde : Int
  predicate : Predicate
  t : Smap

/-- `PrimaryPredicateGEProof` (output of `_finalize_ge_proof`). -/
structure PrimaryPredicateGEProof where
  u : Smap
  r : Smap
  mj : Int
  alpha : Int
  t : Smap
  predicate : Predicate

/-- Modelled from the spec: the protocol constant `ITERATION = 4` (four-squares),
from the missing `cl/constants.rs`. -/
def ITERATION : Nat := 4

/-- The unrevealed attributes: `claim_schema.attrs \ sub_proof_request.revealed_attrs`,
computed identically in `_init_eq_proof` and `_finalize_eq_proof`. -/
def unrevealedAttrs (claim_schema : ClaimSchema) (sub_proof_request : SubProofRequest) :
    Finset String :=
  claim_schema.attrs \ sub_proof_request.revealed_attrs

/-- `ProofBuilder::_finalize_eq_proof`.  The source's per-key early-exit errors on
missing `m_tilde` / attribute-value entries are folded into a single up-front
membership check (the success case and error/success split are identical). -/
def finalize_eq_proof (ms : Int) (init_proof : PrimaryEqualInitProof) (c_h : Int)
    (claim_schema : ClaimSchema) (claim_values : ClaimValues)
    (sub_proof_request : SubProofRequest) :
    Except IndyCryptoError PrimaryEqualProof :=
  let e := c_h * init_proof.e_prime + init_proof.e_tilde
  let v := c_h * init_proof.v_prime + init_proof.v_tilde
  let unrevealed := unrevealedAttrs claim_schema sub_proof_request
  if ∀ k ∈ unrevealed, (init_proof.m_tilde k).isSome ∧ (claim_values.attrs_values k).isSome then
    let m : Smap := fun k =>
      if k ∈ unrevealed then
        match init_proof.m_tilde k, claim_values.attrs_values k with
        | some cur_mtilde, some cur_val => some (c_h * cur_val + cur_mtilde)
        | _, _ => none
      else none
    let m1 := c_h * ms + init_proof.m1_tilde
    let m2 := c_h * init_proof.m2 + init_proof.m2_tilde
    if ∀ attr ∈ sub_proof_request.revealed_attrs, (claim_values.attrs_values attr).isSome then
      let revealed : Smap := fun attr =>
        if attr ∈ sub_proof_request.revealed_attrs then claim_values.attrs_values attr else none
      .ok { revealed_attrs := revealed, a_prime := init_proof.a_prime, e, v, m, m1, m2 }
    else .error (.invalidStructure "Encoded value not found")
  else .error (.invalidStructure "Value not found in init_proof.mtilde or attributes_values")

/-- One iteration of the `for i in 0..ITERATION` loop of `_finalize_ge_proof`,
threading the accumulated `(u, r, urproduct)`. -/
def finalize_ge_step (c_h : Int) (init_proof : PrimaryPredicateGEInitProof)
    (acc : Smap × Smap × Int) (i : Nat) :
    Except IndyCryptoError (Smap × Smap × Int) :=
  match init_proof.u_tilde (toString i), init_proof.u (toString i),
        init_proof.r_tilde (toString i), init_proof.r (toString i),
        init_proof.r_tilde "DELTA", init_proof.r "DELTA" with
  | some cur_utilde, some cur_u, some cur_rtilde, some cur_r,
    some cur_rtilde_delta, some cur_r_delta =>
    let new_u := c_h * cur_u + cur_utilde
    let new_r := c_h * cur_r + cur_rtilde
    let u := acc.1.insert (toString i) new_u
    let r := acc.2.1.insert (toString i) new_r
    let urproduct := cur_u * cur_r + acc.2.2
    let new_delta := c_h * cur_r_delta + cur_rtilde_delta
    let r := r.insert "DELTA" new_delta
    .ok (u, r, urproduct)
  | _, _, _, _, _, _ =>
    .error (.invalidStructure "Value not found in init_proof maps")

/-- `ProofBuilder::_finalize_ge_proof`. -/
def finalize_ge_proof (c_h : Int) (init_proof : PrimaryPredicateGEInitProof)
    (eq_proof : PrimaryEqualProof) :
    Except IndyCryptoError PrimaryPredicateGEProof := do
  let acc ← (List.range ITERATION).foldlM (finalize_ge_step c_h init_proof)
      (Smap.empty, Smap.empty, (0 : Int))
  match init_proof.r "DELTA" with
  | none => .error (.invalidStructure "Value not found in init_proof.r")
  | some r_delta =>
    let alpha := (r_delta - acc.2.2) * c_h + init_proof.alpha_tilde
    match eq_proof.m init_proof.predicate.attr_name with
    | none => .error (.invalidStructure "Value not found in eq_proof.m")
    | some mj =>
      .ok { u := acc.1, r := acc.2.1, mj, alpha, t := init_proof.t,
            predicate := init_proof.predicate }

/-- C4: for every stored init proof, challenge `c_h` and master secret `ms`,
`_finalize_eq_proof` and `_finalize_ge_proof` compute each Schnorr response as
the corresponding tilde value plus `c_h` times the corresponding secret:
`e = c_h·e' + e_tilde`, `v = c_h·v' + v_tilde`, `m[k] = c_h·value[k] + m_tilde[k]`
for each unrevealed `k`, `m1 = c_h·ms + m1_tilde`, `m2 = c_h·m2 + m2_tilde`, and
for each GE predicate `u_i = c_h·u_i + u_tilde_i`, `r_i = c_h·r_i + r_tilde_i`,
`r_Δ = c_h·r_Δ + r_tilde_Δ`, `α = c_h·(r_Δ − Σ u_i·r_i) + alpha_tilde`. -/
theorem C4_finalize_schnorr_responses
    (ms c_h : Int) (ip : PrimaryEqualInitProof) (cs : ClaimSchema) (cv : ClaimValues)
    (spr : SubProofRequest) (eqp : PrimaryEqualProof)
    (gip : PrimaryPredicateGEInitProof) (gep : PrimaryPredicateGEProof)
    (u0 u1 u2 u3 ut0 ut1 ut2 ut3 r0 r1 r2 r3 rt0 rt1 rt2 rt3 rD rtD : Int)
    (heq : finalize_eq_proof ms ip c_h cs cv spr = .ok eqp)
    (hge : finalize_ge_proof c_h gip eqp = .ok gep)
    (hu0 : gip.u "0" = some u0) (hu1 : gip.u "1" = some u1)
    (hu2 : gip.u "2" = some u2) (hu3 : gip.u "3" = some u3)
    (hut0 : gip.u_tilde "0" = some ut0) (hut1 : gip.u_tilde "1" = some ut1)
    (hut2 : gip.u_tilde "2" = some ut2) (hut3 : gip.u_tilde "3" = some ut3)
    (hr0 : gip.r "0" = some r0) (hr1 : gip.r "1" = some r1)
    (hr2 : gip.r "2" = some r2) (hr3 : gip.r "3" = some r3)
    (hrt0 : gip.r_tilde "0" = some rt0) (hrt1 : gip.r_tilde "1" = some rt1)
    (hrt2 : gip.r_tilde "2" = some rt2) (hrt3 : gip.r_tilde "3" = some rt3)
    (hrD : gip.r "DELTA" = some rD) (hrtD : gip.r_tilde "DELTA" = some rtD) :
    eqp.e = c_h * ip.e_prime + ip.e_tilde ∧
    eqp.v = c_h * ip.v_prime + ip.v_tilde ∧
    (∀ k ∈ unrevealedAttrs cs spr, ∀ mt av, ip.m_tilde k = some mt →
      cv.attrs_values k = some av → eqp.m k = some (c_h * av + mt)) ∧
    eqp.m1 = c_h * ms + ip.m1_tilde ∧
    eqp.m2 = c_h * ip.m2 + ip.m2_tilde ∧
    gep.u "0" = some (c_h * u0 + ut0) ∧ gep.u "1" = some (c_h * u1 + ut1) ∧
    gep.u "2" = some (c_h * u2 + ut2) ∧ gep.u "3" = some (c_h * u3 + ut3) ∧
    gep.r "0" = some (c_h * r0 + rt0) ∧ gep.r "1" = some (c_h * r1 + rt1) ∧
    gep.r "2" = some (c_h * r2 + rt2) ∧ gep.r "3" = some (c_h * r3 + rt3) ∧
    gep.r "DELTA" = some (c_h * rD + rtD) ∧
    gep.alpha = c_h * (rD - (u0 * r0 + u1 * r1 + u2 * r2 + u3 * r3)) + gip.alpha_tilde := by
  have e0 : toString (0 : Nat) = "0" := rfl
  have e1 : toString (1 : Nat) = "1" := rfl
  have e2 : toString (2 : Nat) = "2" := rfl
  have e3 : toString (3 : Nat) = "3" := rfl
  have hrange : List.range ITERATION = [0, 1, 2, 3] := rfl
  simp only [finalize_eq_proof] at heq
  split at heq
  case isFalse => exact absurd heq (by simp)
  split at heq
  case isFalse => exact absurd heq (by simp)
  rw [Except.ok.injEq] at heq
  subst heq
  simp only [finalize_ge_proof, hrange, List.foldlM_cons, List.foldlM_nil,
    finalize_ge_step, e0, e1, e2, e3,
    hu0, hu1, hu2, hu3, hut0, hut1, hut2, hut3, hr0, hr1, hr2, hr3,
    hrt0, hrt1, hrt2, hrt3, hrD, hrtD, bind, Except.bind, pure, Except.pure] at hge
  split at hge
  · exact absurd hge (by simp)
  · rw [Except.ok.injEq] at hge
    subst hge
    refine ⟨rfl, rfl, ?_, rfl, rfl, ?_, ?_, ?_, ?_, ?_, ?_, ?_, ?_, ?_, ?_⟩
    · intro k hk mt av hmt hav
      simp [hk, hmt, hav]
    all_goals simp [Smap.insert]
    ring

/-- Concrete equality init proof used to witness C4. -/
def c4ip : PrimaryEqualInitProof :=
  { a_prime := 1, t := 0, e_tilde := 2, e_prime := 7, v_tilde := 11, v_prime := 13,
    m_tilde := Smap.empty.insert "age" 17, m1_tilde := 19, m2_tilde := 23, m2 := 29 }

/-- Concrete claim schema used to witness C4. -/
def c4cs : ClaimSchema := { attrs := {"age", "name"} }

/-- Concrete claim values used to witness C4. -/
def c4cv : ClaimValues := { attrs_values := (Smap.empty.insert "age" 31).insert "name" 37 }

/-- Concrete sub-proof request used to witness C4. -/
def c4spr : SubProofRequest := { revealed_attrs := {"name"}, predicates := [] }

/-- Concrete GE init proof used to witness C4. -/
def c4gip : PrimaryPredicateGEInitProof :=
  { c_list := [], tau_list := [],
    u := (((Smap.empty.insert "0" 3).insert "1" 1).insert "2" 0).insert "3" 0,
    u_tilde := (((Smap.empty.insert "0" 41).insert "1" 43).insert "2" 47).insert "3" 53,
    r := ((((Smap.empty.insert "0" 59).insert "1" 61).insert "2" 67).insert "3" 71).insert "DELTA" 73,
    r_tilde := ((((Smap.empty.insert "0" 79).insert "1" 83).insert "2" 89).insert "3" 97).insert "DELTA" 101,
    alpha_tilde := 103,
    predicate := { attr_name := "age", p_type := .GE, value := 18 },
    t := Smap.empty }

/-- The equality proof obtained by running `finalize_eq_proof` on the C4 witness data. -/
def c4eqp : PrimaryEqualProof :=
  (finalize_eq_proof 5 c4ip 3 c4cs c4cv c4spr).toOption.get (by decide)

/-- The GE proof obtained by running `finalize_ge_proof` on the C4 witness data. -/
def c4gep : PrimaryPredicateGEProof :=
  (finalize_ge_proof 3 c4gip c4eqp).toOption.get (by decide)

/-- Witness for C4 at the concrete data above. -/
theorem C4_finalize_schnorr_responses_witness :
    finalize_eq_proof 5 c4ip 3 c4cs c4cv c4spr = .ok c4eqp ∧
    finalize_ge_proof 3 c4gip c4eqp = .ok c4gep ∧
    c4eqp.e = 3 * 7 + 2 ∧
    c4eqp.m "age" = some (3 * 31 + 17) ∧
    c4gep.u "0" = some (3 * 3 + 41) ∧
    c4gep.r "DELTA" = some (3 * 73 + 101) ∧
    c4gep.alpha = 3 * (73 - (3 * 59 + 1 * 61 + 0 * 67 + 0 * 71)) + 103 := by
  have h := C4_finalize_schnorr_responses 5 3 c4ip c4cs c4cv c4spr c4eqp c4gip c4gep
    3 1 0 0 41 43 47 53 59 61 67 71 79 83 89 97 73 101 rfl rfl
    (by decide) (by decide) (by decide) (by decide) (by decide) (by decide) (by decide)
    (by decide) (by decide) (by decide) (by decide) (by decide) (by decide) (by decide)
    (by decide) (by decide) (by decide) (by decide)
  obtain ⟨h1, h2, h3, _, _, h6, _, _, _, _, _, _, _, h14, h15⟩ := h
  refine ⟨rfl, rfl, h1, ?_, h6, h14, h15⟩
  exact h3 "age" (by decide) 17 31 (by decide) (by decide)

/-- Two's-complement wrap of an `i32` subtraction result (the source compiles with
overflow checks off, so `i32` arithmetic wraps modulo `2^32`). -/
def wrap32 (x : Int) : Int := (x + 2 ^ 31) % 2 ^ 32 - 2 ^ 31

/-- The range of values representable as an `i32` (i.e. for which
`BigNumber::to_dec().parse::<i32>()` succeeds on a numeric value). -/
def inI32Range (x : Int) : Prop := -(2 ^ 31) ≤ x ∧ x < 2 ^ 31

instance (x : Int) : Decidable (inI32Range x) := by
  unfold inI32Range; infer_instance

theorem wrap32_eq_of_inI32Range {x : Int} (h : inI32Range x) : wrap32 x = x := by
  obtain ⟨h1, h2⟩ := h
  unfold wrap32
  omega

/-- `BigNumber::mod_exp` for the non-negative exponents the prover uses. -/
def mod_exp (b e n : Int) : Int := b ^ e.toNat % n

/-- First `some` value of `f` on `0, 1, …, n−1` (used to realise the
four-squares search; which witness is picked is irrelevant to the claims). -/
def firstSome {α : Type} (f : Nat → Option α) : Nat → Option α
  | 0 => none
  | n + 1 =>
    match firstSome f n with
    | some r => some r
    | none => f n

theorem firstSome_sound {α : Type} (f : Nat → Option α) :
    ∀ n r, firstSome f n = some r → ∃ k, k < n ∧ f k = some r := by
  intro n
  induction n with
  | zero => intro r h; exact absurd h (by simp [firstSome])
  | succ m ih =>
    intro r h
    unfold firstSome at h
    rcases hm : firstSome f m with _ | s
    · rw [hm] at h
      exact ⟨m, Nat.lt_succ_self m, h⟩
    · rw [hm] at h
      obtain ⟨k, hk, hfk⟩ := ih s hm
      cases h
      exact ⟨k, Nat.lt_succ_of_lt hk, hfk⟩

theorem firstSome_isSome {α : Type} (f : Nat → Option α) :
    ∀ n k, k < n → (f k).isSome → (firstSome f n).isSome := by
  intro n
  induction n with
  | zero => intro k hk; omega
  | succ m ih =>
    intro k hk hfk
    unfold firstSome
    rcases hm : firstSome f m with _ | s
    · rcases Nat.lt_succ_iff_lt_or_eq.mp hk with h | h
      · have := ih k h hfk
        rw [hm] at this
        exact absurd this (by simp)
      · subst h; simpa using hfk
    · simp

/-- Modelled from the spec: `helpers::four_squares` (missing `cl/helpers.rs`),
"four-squares returns `(u0,u1,u2,u3)` with `Σ u_i² = δ`" (Lagrange).  Realised
as a bounded search; existence for every `δ ≥ 0` is Lagrange's theorem. -/
def four_squares_find (d : Nat) : Option (Nat × Nat × Nat × Nat) :=
  firstSome (fun a => firstSome (fun b => firstSome (fun c => firstSome (fun x =>
    if a * a + b * b + c * c + x * x = d then some (a, b, c, x) else none)
      (d + 1)) (d + 1)) (d + 1)) (d + 1)

theorem four_squares_find_sound {d : Nat} {u : Nat × Nat × Nat × Nat}
    (h : four_squares_find d = some u) :
    u.1 * u.1 + u.2.1 * u.2.1 + u.2.2.1 * u.2.2.1 + u.2.2.2 * u.2.2.2 = d := by
  unfold four_squares_find at h
  obtain ⟨a, -, h⟩ := firstSome_sound _ _ _ h
  obtain ⟨b, -, h⟩ := firstSome_sound _ _ _ h
  obtain ⟨c, -, h⟩ := firstSome_sound _ _ _ h
  obtain ⟨x, -, h⟩ := firstSome_sound _ _ _ h
  split at h
  · cases h; assumption
  · exact absurd h (by simp)

theorem four_squares_find_isSome (d : Nat) : (four_squares_find d).isSome := by
  obtain ⟨a, b, c, x, habcx⟩ := Nat.sum_four_squares d
  have ha : a ≤ d := by
    refine le_trans (Nat.le_self_pow two_ne_zero a) ?_
    omega
  have hb : b ≤ d := by
    refine le_trans (Nat.le_self_pow two_ne_zero b) ?_
    omega
  have hc : c ≤ d := by
    refine le_trans (Nat.le_self_pow two_ne_zero c) ?_
    omega
  have hx : x ≤ d := by
    refine le_trans (Nat.le_self_pow two_ne_zero x) ?_
    omega
  have hsum : a * a + b * b + c * c + x * x = d := by
    simpa [pow_two] using habcx
  unfold four_squares_find
  refine firstSome_isSome _ _ a (by omega) ?_
  refine firstSome_isSome _ _ b (by omega) ?_
  refine firstSome_isSome _ _ c (by omega) ?_
  refine firstSome_isSome _ _ x (by omega) ?_
  simp [hsum]

/-- `IssuerPrimaryPublicKey { n, s, z, rms, r, rctxt }` (fields the prover reads). -/
structure IssuerPrimaryPublicKey where
  n : Int
  s : Int
  z : Int
  rms : Int
  rctxt : Int
  r : Smap

/-- Random tape for one `_init_ge_proof` call: one field per `bn_rand` draw. -/
structure GERand where
  r_of : Nat → Int
  r_delta : Int
  u_tilde_of : Nat → Int
  r_tilde_of : Nat → Int
  rt_delta : Int
  alpha_tilde : Int

/-- One iteration of the first `for i in 0..ITERATION` loop of `_init_ge_proof`,
threading `(r, t, c_list)`. -/
def init_ge_step (pk : IssuerPrimaryPublicKey) (umap : Smap) (rand : GERand)
    (acc : Smap × Smap × List Int) (i : Nat) :
    Except IndyCryptoError (Smap × Smap × List Int) :=
  match umap (toString i) with
  | none => .error (.invalidStructure ("Value by key '" ++ toString i ++ "' not found in u1"))
  | some cur_u =>
    let cur_r := rand.r_of i
    let cut_t := mod_exp pk.z cur_u pk.n * mod_exp pk.s cur_r pk.n % pk.n
    .ok (acc.1.insert (toString i) cur_r, acc.2.1.insert (toString i) cut_t,
         acc.2.2 ++ [cut_t])

/-- `ProofBuilder::_init_ge_proof`.  `calc_tge` (missing `cl/helpers.rs`) is kept
abstract, passed in as a function argument with the source's signature; the
claims never inspect the `tau_list` it yields.  The `i32` parse of the claim
value becomes an explicit range check, the `i32` subtraction an explicit wrap. -/
def init_ge_proof
    (calc_tge : IssuerPrimaryPublicKey → Smap → Smap → Int → Int → Smap → List Int)
    (pk : IssuerPrimaryPublicKey) (mtilde : Smap) (claim_values : ClaimValues)
    (predicate : Predicate) (rand : GERand) :
    Except IndyCryptoError PrimaryPredicateGEInitProof := do
  let attr_value ←
    match claim_values.attrs_values predicate.attr_name with
    | none => .error (.invalidStructure
        ("Value by key '" ++ predicate.attr_name ++ "' not found in claim_values"))
    | some av =>
      if inI32Range av then .ok av
      else .error (.invalidStructure
        ("Value by key '" ++ predicate.attr_name ++ "' has invalid format"))
  let delta : Int := wrap32 (attr_value - predicate.value)
  if delta < 0 then
    .error (.invalidStructure "Predicate is not satisfied")
  else
    match four_squares_find delta.toNat with
    | none => .error (.invalidStructure "Four squares not found")
    | some (u0, u1, u2, u3) =>
      let umap := (((Smap.empty.insert "0" (u0 : Int)).insert "1" (u1 : Int)).insert
        "2" (u2 : Int)).insert "3" (u3 : Int)
      let acc ← (List.range ITERATION).foldlM (init_ge_step pk umap rand)
        (Smap.empty, Smap.empty, [])
      let r := acc.1.insert "DELTA" rand.r_delta
      let t_delta := mod_exp pk.z delta pk.n * mod_exp pk.s rand.r_delta pk.n % pk.n
      let t := acc.2.1.insert "DELTA" t_delta
      let c_list := acc.2.2 ++ [t_delta]
      let u_tilde := (((Smap.empty.insert "0" (rand.u_tilde_of 0)).insert "1"
        (rand.u_tilde_of 1)).insert "2" (rand.u_tilde_of 2)).insert "3" (rand.u_tilde_of 3)
      let r_tilde := ((((Smap.empty.insert "0" (rand.r_tilde_of 0)).insert "1"
        (rand.r_tilde_of 1)).insert "2" (rand.r_tilde_of 2)).insert "3"
        (rand.r_tilde_of 3)).insert "DELTA" rand.rt_delta
      match mtilde predicate.attr_name with
      | none => .error (.invalidStructure
          ("Value by key '" ++ predicate.attr_name ++ "' not found in eq_proof.mtilde"))
      | some mj =>
        let tau_list := calc_tge pk u_tilde r_tilde mj rand.alpha_tilde t
        .ok { c_list, tau_list, u := umap, u_tilde, r, r_tilde,
              alpha_tilde := rand.alpha_tilde, predicate, t }

/-- C3 (amended): for every predicate whose claim value parses as an `i32` and
whose difference `δ = attr − v` also fits in `i32`: if `δ < 0` the GE init fails
with "Predicate is not satisfied"; if `δ ≥ 0` it succeeds and the stored
four-squares decomposition satisfies `u0² + u1² + u2² + u3² = δ`.  (The `i32`
range condition on `δ` is forced by the source's wrapping `i32` subtraction.) -/
theorem C3_ge_init_delta
    (calc_tge : IssuerPrimaryPublicKey → Smap → Smap → Int → Int → Smap → List Int)
    (pk : IssuerPrimaryPublicKey) (mtilde : Smap) (cv : ClaimValues)
    (pred : Predicate) (rand : GERand) (av mj : Int)
    (hav : cv.attrs_values pred.attr_name = some av)
    (havr : inI32Range av)
    (hmj : mtilde pred.attr_name = some mj)
    (hdr : inI32Range (av - pred.value)) :
    (av - pred.value < 0 →
      init_ge_proof calc_tge pk mtilde cv pred rand =
        .error (.invalidStructure "Predicate is not satisfied")) ∧
    (0 ≤ av - pred.value →
      ∃ gip, ∃ u0 u1 u2 u3 : Int,
        init_ge_proof calc_tge pk mtilde cv pred rand = .ok gip ∧
        gip.u "0" = some u0 ∧ gip.u "1" = some u1 ∧
        gip.u "2" = some u2 ∧ gip.u "3" = some u3 ∧
        u0 * u0 + u1 * u1 + u2 * u2 + u3 * u3 = av - pred.value) := by
  have hwrap : wrap32 (av - pred.value) = av - pred.value := wrap32_eq_of_inI32Range hdr
  have e0 : toString (0 : Nat) = "0" := rfl
  have e1 : toString (1 : Nat) = "1" := rfl
  have e2 : toString (2 : Nat) = "2" := rfl
  have e3 : toString (3 : Nat) = "3" := rfl
  have hrange : List.range ITERATION = [0, 1, 2, 3] := rfl
  constructor
  · intro hneg
    simp only [init_ge_proof, hav, havr, if_true, bind, Except.bind, hwrap, hneg]
  · intro hpos
    have hnneg : ¬ (av - pred.value < 0) := not_lt.mpr hpos
    obtain ⟨⟨a, b, c, x⟩, h4⟩ :=
      Option.isSome_iff_exists.mp (four_squares_find_isSome (av - pred.value).toNat)
    have hsum : (a : Int) * a + b * b + c * c + x * x = av - pred.value := by
      have := four_squares_find_sound h4
      have hcast : ((a * a + b * b + c * c + x * x : Nat) : Int) =
          (((av - pred.value).toNat : Nat) : Int) := by rw [this]
      push_cast at hcast
      rwa [Int.toNat_of_nonneg hpos] at hcast
    rcases hE : init_ge_proof calc_tge pk mtilde cv pred rand with err | gip
    · exfalso
      simp only [init_ge_proof, hav, havr, if_true, bind, Except.bind, hwrap, hnneg,
        if_false, h4, hrange, List.foldlM_cons, List.foldlM_nil, init_ge_step,
        e0, e1, e2, e3, hmj, pure, Except.pure] at hE
      simp [Smap.insert, Smap.empty] at hE
    · have hE' := hE
      simp only [init_ge_proof, hav, havr, if_true, bind, Except.bind, hwrap, hnneg,
        if_false, h4, hrange, List.foldlM_cons, List.foldlM_nil, init_ge_step,
        e0, e1, e2, e3, hmj, pure, Except.pure] at hE'
      simp [Smap.insert, Smap.empty] at hE'
      refine ⟨gip, (a : Int), (b : Int), (c : Int), (x : Int), rfl, ?_, ?_, ?_, ?_, hsum⟩
      all_goals rw [← hE']
      all_goals simp [Smap.insert]

/-- Concrete primary public key used by the C3 counterexample and witness. -/
def c3pk : IssuerPrimaryPublicKey :=
  { n := 5, s := 2, z := 3, rms := 0, rctxt := 0, r := Smap.empty }

/-- Concrete random tape used by the C3 counterexample and witness. -/
def c3rand : GERand :=
  { r_of := fun _ => 0, r_delta := 0, u_tilde_of := fun _ => 0,
    r_tilde_of := fun _ => 0, rt_delta := 0, alpha_tilde := 0 }

/-- Concrete `m_tilde` map used by the C3 counterexample and witness. -/
def c3mt : Smap := Smap.empty.insert "age" 1

/-- Claim values whose "age" is `i32::MAX`, for the C3 counterexample. -/
def c3cv : ClaimValues := { attrs_values := Smap.empty.insert "age" 2147483647 }

/-- Predicate `age ≥ i32::MIN`, for the C3 counterexample. -/
def c3pred : Predicate := { attr_name := "age", p_type := .GE, value := -2147483648 }

/-- C3 counterexample: with claim value `age = 2147483647` (parses as `i32`) and
predicate value `v = -2147483648` (a valid `i32`), the mathematical difference
`δ = attr − v = 4294967295 ≥ 0`, so the claim as stated requires the GE init to
succeed; but the source computes `δ` by `i32` subtraction, which wraps to `-1`,
so `_init_ge_proof` fails with "Predicate is not satisfied". -/
theorem C3_ge_init_delta_counterexample :
    (0 : Int) ≤ 2147483647 - c3pred.value ∧
    inI32Range (2147483647 : Int) ∧ inI32Range c3pred.value ∧
    c3cv.attrs_values c3pred.attr_name = some 2147483647 ∧
    init_ge_proof (fun _ _ _ _ _ _ => []) c3pk c3mt c3cv c3pred c3rand =
      .error (.invalidStructure "Predicate is not satisfied") :=
  ⟨by decide, by decide, by decide, rfl, rfl⟩

/-- Claim values with `age = 28`, for the C3 witness. -/
def c3wcv : ClaimValues := { attrs_values := Smap.empty.insert "age" 28 }

/-- Predicate `age ≥ 18`, for the C3 witness (the source's own test vector). -/
def c3wpred : Predicate := { attr_name := "age", p_type := .GE, value := 18 }

/-- Witness for C3 at the concrete data above (`δ = 10`). -/
theorem C3_ge_init_delta_witness :
    c3wcv.attrs_values c3wpred.attr_name = some 28 ∧
    inI32Range (28 : Int) ∧ c3mt c3wpred.attr_name = some 1 ∧
    inI32Range ((28 : Int) - c3wpred.value) ∧
    (((28 : Int) - c3wpred.value < 0 →
      init_ge_proof (fun _ _ _ _ _ _ => []) c3pk c3mt c3wcv c3wpred c3rand =
        .error (.invalidStructure "Predicate is not satisfied")) ∧
    (0 ≤ (28 : Int) - c3wpred.value →
      ∃ gip, ∃ u0 u1 u2 u3 : Int,
        init_ge_proof (fun _ _ _ _ _ _ => []) c3pk c3mt c3wcv c3wpred c3rand = .ok gip ∧
        gip.u "0" = some u0 ∧ gip.u "1" = some u1 ∧
        gip.u "2" = some u2 ∧ gip.u "3" = some u3 ∧
        u0 * u0 + u1 * u1 + u2 * u2 + u3 * u3 = 28 - c3wpred.value)) :=
  ⟨rfl, by decide, rfl, by decide,
    C3_ge_init_delta (fun _ _ _ _ _ _ => []) c3pk c3mt c3wcv c3wpred c3rand 28 1
      rfl (by decide) rfl (by decide)⟩

/-- `Witness { sigma_i, u_i, g_i, omega, v }` of a non-revocation claim. -/
structure Witness (G1 G2 : Type) where
  sigma_i : G2
  u_i : G2
  g_i : G1
  omega : G2
  v : Finset Nat

/-- `NonRevocationClaimSignature { sigma, c, vr_prime_prime, witness, g_i, i, m2 }`. -/
structure NonRevocationClaimSignature (R G1 G2 : Type) where
  sigma : G1
  c : R
  vr_prime_prime : R
  witness : Witness G1 G2
  g_i : G1
  i : Nat
  m2 : R

/-- `RevocationAccumulator { acc, v, max_claim_num }`. -/
structure RevocationAccumulator (G2 : Type) where
  acc : G2
  v : Finset Nat
  max_claim_num : Nat

section WitnessUpdate

variable {R G1 G2 : Type} [AddCommGroup G2]

/-- The tail index used by `_update_non_revocation_claim`:
`accum.max_claim_num + 1 - j + claim.i` (`u32` arithmetic; as in Rust, `- j`
binds before `+ i`.  Truncated `Nat` subtraction matches the source whenever
`j ≤ max_claim_num + 1`, which holds for indices issued by the registry). -/
def tails_key (accum : RevocationAccumulator G2) (i j : Nat) : Nat :=
  accum.max_claim_num + 1 - j + i

/-- The first loop of `_update_non_revocation_claim`: sum the tail points of
`v_old_minus_new` into `omega_denom`, failing on a missing key. -/
def omega_denom_fold (tails : Nat → Option G2) (key : Nat → Nat) (init : G2)
    (js : List Nat) : Except IndyCryptoError G2 :=
  js.foldlM (fun acc_ j =>
    match tails (key j) with
    | none => .error (.invalidStructure ("Key not found " ++ toString (key j) ++ " in tails"))
    | some tl => .ok (acc_ + tl)) init

/-- The second loop of `_update_non_revocation_claim`: re-accumulate the tail
points into `omega_num`, adding `omega_num - omega_denom` into `new_omega` at
each step.  The pair is `(omega_num, new_omega)`. -/
def omega_num_fold (tails : Nat → Option G2) (key : Nat → Nat) (omega_denom : G2)
    (init : G2 × G2) (js : List Nat) : Except IndyCryptoError (G2 × G2) :=
  js.foldlM (fun acc j =>
    match tails (key j) with
    | none => .error (.invalidStructure ("Key not found " ++ toString (key j) ++ " in tails"))
    | some tl =>
      let omega_num := acc.1 + tl
      .ok (omega_num, acc.2 + (omega_num - omega_denom))) init

/-- `ProofBuilder::_update_non_revocation_claim`.  `ord` is the (arbitrary but
fixed) iteration order the Rust `HashSet` presents; both source loops traverse
the same set in the same order. -/
def update_non_revocation_claim (ord : Finset Nat → List Nat) (tails : Nat → Option G2)
    (claim : NonRevocationClaimSignature R G1 G2) (accum : RevocationAccumulator G2) :
    Except IndyCryptoError (NonRevocationClaimSignature R G1 G2) :=
  if claim.i ∉ accum.v then
    .error (.invalidState "Can not update Witness. Claim revoked.")
  else if claim.witness.v ≠ accum.v then do
    let v_old_minus_new := ord (claim.witness.v \ accum.v)
    let omega_denom ← omega_denom_fold tails (tails_key accum claim.i) 0 v_old_minus_new
    let acc ← omega_num_fold tails (tails_key accum claim.i) omega_denom
      (0, claim.witness.omega) v_old_minus_new
    .ok { claim with witness := { claim.witness with v := accum.v, omega := acc.2 } }
  else .ok claim

/-- The source mutates `claim` in place through `&mut`; every error is raised
before the two field assignments, so on error the caller's claim is unchanged.
This wrapper returns the caller-visible claim together with the error. -/
def update_non_revocation_claim_mut (ord : Finset Nat → List Nat)
    (tails : Nat → Option G2) (claim : NonRevocationClaimSignature R G1 G2)
    (accum : RevocationAccumulator G2) :
    NonRevocationClaimSignature R G1 G2 × Option IndyCryptoError :=
  match update_non_revocation_claim ord tails claim accum with
  | .ok c2 => (c2, none)
  | .error err => (claim, some err)

theorem omega_denom_fold_ok (tails : Nat → Option G2) (key : Nat → Nat) :
    ∀ (js : List Nat) (init : G2), (∀ j ∈ js, (tails (key j)).isSome) →
    omega_denom_fold tails key init js =
      .ok (init + (js.map (fun j => (tails (key j)).getD 0)).sum) := by
  intro js
  induction js with
  | nil => intro init _; simp only [omega_denom_fold, List.foldlM_nil, List.map_nil,
      List.sum_nil, add_zero]; rfl
  | cons j js ih =>
    intro init hall
    obtain ⟨tl, htl⟩ := Option.isSome_iff_exists.mp (hall j (List.mem_cons_self j js))
    have hrest : ∀ q ∈ js, (tails (key q)).isSome :=
      fun q hq => hall q (List.mem_cons_of_mem j hq)
    have step := ih (init + tl) hrest
    simp only [omega_denom_fold] at step
    simp only [omega_denom_fold, List.foldlM_cons, htl, bind, Except.bind,
      List.map_cons, List.sum_cons]
    rw [step]
    simp [add_assoc]

theorem omega_denom_fold_error_shape (tails : Nat → Option G2) (key : Nat → Nat) :
    ∀ (js : List Nat) (init : G2) (err : IndyCryptoError),
    omega_denom_fold tails key init js = .error err →
    ∃ k : Nat, err = .invalidStructure ("Key not found " ++ toString k ++ " in tails") := by
  intro js
  induction js with
  | nil =>
    intro init err h
    simp only [omega_denom_fold, List.foldlM_nil] at h
    exact absurd h (by simp [pure, Except.pure])
  | cons j js ih =>
    intro init err h
    simp only [omega_denom_fold, List.foldlM_cons, bind, Except.bind] at h
    rcases htl : tails (key j) with _ | tl
    · rw [htl] at h
      injection h with h
      exact ⟨key j, h.symm⟩
    · rw [htl] at h
      exact ih (init + tl) err h

theorem omega_denom_fold_missing (tails : Nat → Option G2) (key : Nat → Nat) :
    ∀ (js : List Nat) (init : G2), (∃ j ∈ js, tails (key j) = none) →
    ∃ err, omega_denom_fold tails key init js = .error err := by
  intro js
  induction js with
  | nil => intro init h; simp at h
  | cons j js ih =>
    intro init h
    simp only [omega_denom_fold, List.foldlM_cons, bind, Except.bind]
    rcases htl : tails (key j) with _ | tl
    · exact ⟨_, rfl⟩
    · obtain ⟨q, hq, hqnone⟩ := h
      rcases List.mem_cons.mp hq with rfl | hq2
      · rw [htl] at hqnone; cases hqnone
      · have := ih (init + tl) ⟨q, hq2, hqnone⟩
        simpa [omega_denom_fold, htl] using this

theorem omega_num_fold_ok (tails : Nat → Option G2) (key : Nat → Nat) (denom : G2) :
    ∀ (js : List Nat) (init : G2 × G2), (∀ j ∈ js, (tails (key j)).isSome) →
    omega_num_fold tails key denom init js =
      .ok (init.1 + (js.map (fun j => (tails (key j)).getD 0)).sum,
           init.2 + ((List.range js.length).map
             (fun p => init.1 + ((js.map (fun j => (tails (key j)).getD 0)).take (p + 1)).sum
               - denom)).sum) := by
  intro js
  induction js with
  | nil =>
    intro init _
    simp only [omega_num_fold, List.foldlM_nil, List.map_nil, List.sum_nil,
      add_zero, List.length_nil, List.range_zero]
    rfl
  | cons j js ih =>
    intro init hall
    obtain ⟨tl, htl⟩ := Option.isSome_iff_exists.mp (hall j (List.mem_cons_self j js))
    have hrest : ∀ q ∈ js, (tails (key q)).isSome :=
      fun q hq => hall q (List.mem_cons_of_mem j hq)
    have step := ih (init.1 + tl, init.2 + (init.1 + tl - denom)) hrest
    simp only [omega_num_fold] at step
    simp only [omega_num_fold, List.foldlM_cons, htl, bind, Except.bind, List.map_cons,
      List.sum_cons, List.length_cons, Option.getD_some]
    rw [step]
    simp only [Except.ok.injEq, Prod.mk.injEq]
    constructor
    · simp [add_assoc]
    · rw [List.range_succ_eq_map, List.map_cons, List.sum_cons, List.map_map]
      have hmap : (List.range js.length).map
          ((fun p => init.1 +
            ((tl :: js.map (fun q => (tails (key q)).getD 0)).take (p + 1)).sum - denom)
            ∘ Nat.succ) =
          (List.range js.length).map
          (fun p => init.1 + tl +
            ((js.map (fun q => (tails (key q)).getD 0)).take (p + 1)).sum - denom) := by
        refine List.map_congr_left ?_
        intro p _
        simp only [Function.comp_apply, List.take_succ_cons, List.sum_cons]
        abel
      rw [hmap]
      simp only [List.take_succ_cons, List.take_zero, List.sum_cons, List.sum_nil, add_zero]
      abel

theorem omega_num_fold_error_shape (tails : Nat → Option G2) (key : Nat → Nat) (denom : G2) :
    ∀ (js : List Nat) (init : G2 × G2) (err : IndyCryptoError),
    omega_num_fold tails key denom init js = .error err →
    ∃ k : Nat, err = .invalidStructure ("Key not found " ++ toString k ++ " in tails") := by
  intro js
  induction js with
  | nil =>
    intro init err h
    simp only [omega_num_fold, List.foldlM_nil] at h
    exact absurd h (by simp [pure, Except.pure])
  | cons j js ih =>
    intro init err h
    simp only [omega_num_fold, List.foldlM_cons, bind, Except.bind] at h
    rcases htl : tails (key j) with _ | tl
    · rw [htl] at h
      injection h with h
      exact ⟨key j, h.symm⟩
    · rw [htl] at h
      exact ih _ err h

/-- C5: for every witness update with `claim.i ∈ accum.v` and `witness.v ≠ accum.v`,
the update forms `Δ = V_old \ V_new` and, in the iteration order `ord` of the
`HashSet`, accumulates the tail point keyed by `max_claim_num + 1 − j + i` for
each `j ∈ Δ`, adding numerator-prefix-sum minus denominator-sum into omega; a
missing tail key is the hard error "Key not found k in tails"; on success
`witness.v` becomes `accum.v`, `witness.omega` the new omega, and no other
field of the claim or witness changes. -/
theorem C5_witness_update
    (ord : Finset Nat → List Nat) (tails : Nat → Option G2)
    (claim : NonRevocationClaimSignature R G1 G2) (accum : RevocationAccumulator G2)
    (hord : (ord (claim.witness.v \ accum.v)).Nodup ∧
      ∀ x, x ∈ ord (claim.witness.v \ accum.v) ↔ x ∈ claim.witness.v \ accum.v)
    (hi : claim.i ∈ accum.v) (hne : claim.witness.v ≠ accum.v) :
    ((∃ j ∈ claim.witness.v \ accum.v, tails (tails_key accum claim.i j) = none) →
      ∃ k : Nat, update_non_revocation_claim ord tails claim accum =
        .error (.invalidStructure ("Key not found " ++ toString k ++ " in tails"))) ∧
    ((∀ j ∈ claim.witness.v \ accum.v, (tails (tails_key accum claim.i j)).isSome) →
      ∃ c2, update_non_revocation_claim ord tails claim accum = .ok c2 ∧
        c2.witness.v = accum.v ∧
        (c2.witness.omega =
          claim.witness.omega +
            ((List.range (ord (claim.witness.v \ accum.v)).length).map (fun p =>
              (((ord (claim.witness.v \ accum.v)).map
                  (fun j => (tails (tails_key accum claim.i j)).getD 0)).take (p + 1)).sum -
              ((ord (claim.witness.v \ accum.v)).map
                  (fun j => (tails (tails_key accum claim.i j)).getD 0)).sum)).sum) ∧
        c2.sigma = claim.sigma ∧ c2.c = claim.c ∧
        c2.vr_prime_prime = claim.vr_prime_prime ∧ c2.g_i = claim.g_i ∧
        c2.i = claim.i ∧ c2.m2 = claim.m2 ∧
        c2.witness.sigma_i = claim.witness.sigma_i ∧
        c2.witness.u_i = claim.witness.u_i ∧
        c2.witness.g_i = claim.witness.g_i) := by
  constructor
  · rintro ⟨j, hj, hnone⟩
    have hjl : j ∈ ord (claim.witness.v \ accum.v) := (hord.2 j).mpr hj
    obtain ⟨err, herr⟩ := omega_denom_fold_missing tails (tails_key accum claim.i)
      (ord (claim.witness.v \ accum.v)) 0 ⟨j, hjl, hnone⟩
    obtain ⟨k, hk⟩ := omega_denom_fold_error_shape tails (tails_key accum claim.i)
      (ord (claim.witness.v \ accum.v)) 0 err herr
    refine ⟨k, ?_⟩
    simp only [update_non_revocation_claim, if_neg (not_not_intro hi), if_pos hne,
      bind, Except.bind, herr, hk]
  · intro hall
    have halll : ∀ j ∈ ord (claim.witness.v \ accum.v),
        (tails (tails_key accum claim.i j)).isSome :=
      fun j hj => hall j ((hord.2 j).mp hj)
    have hd := omega_denom_fold_ok tails (tails_key accum claim.i)
      (ord (claim.witness.v \ accum.v)) 0 halll
    have hn := omega_num_fold_ok tails (tails_key accum claim.i)
      (0 + ((ord (claim.witness.v \ accum.v)).map
        (fun j => (tails (tails_key accum claim.i j)).getD 0)).sum)
      (ord (claim.witness.v \ accum.v)) (0, claim.witness.omega) halll
    simp only [zero_add] at hd hn
    simp only [update_non_revocation_claim, if_neg (not_not_intro hi), if_pos hne,
      bind, Except.bind, hd, hn]
    exact ⟨_, rfl, rfl, rfl, rfl, rfl, rfl, rfl, rfl, rfl, rfl, rfl, rfl⟩

/-- C6: the witness update fails with the `InvalidState` error
"Can not update Witness. Claim revoked." exactly when `claim.i ∉ accum.v`, and
on that error the caller's claim (in particular its witness) is unchanged; when
`claim.i ∈ accum.v` that error never occurs. -/
theorem C6_claim_revoked
    (ord : Finset Nat → List Nat) (tails : Nat → Option G2)
    (claim : NonRevocationClaimSignature R G1 G2) (accum : RevocationAccumulator G2) :
    (claim.i ∉ accum.v →
      update_non_revocation_claim_mut ord tails claim accum =
        (claim, some (.invalidState "Can not update Witness. Claim revoked."))) ∧
    (claim.i ∈ accum.v →
      (update_non_revocation_claim_mut ord tails claim accum).2 ≠
        some (.invalidState "Can not update Witness. Claim revoked.")) := by
  constructor
  · intro hni
    simp only [update_non_revocation_claim_mut, update_non_revocation_claim, if_pos hni]
  · intro hi hcontra
    simp only [update_non_revocation_claim_mut] at hcontra
    rcases hE : update_non_revocation_claim ord tails claim accum with err | c2
    · rw [hE] at hcontra
      simp only [Option.some.injEq] at hcontra
      rw [update_non_revocation_claim] at hE
      rw [if_neg (not_not_intro hi)] at hE
      by_cases hne : claim.witness.v ≠ accum.v
      · rw [if_pos hne] at hE
        simp only [bind, Except.bind] at hE
        rcases hdd : omega_denom_fold tails (tails_key accum claim.i) 0
            (ord (claim.witness.v \ accum.v)) with derr | dval
        · simp only [hdd] at hE
          injection hE with hE2
          obtain ⟨k, hk⟩ := omega_denom_fold_error_shape tails (tails_key accum claim.i)
            (ord (claim.witness.v \ accum.v)) 0 derr hdd
          rw [← hE2, hk] at hcontra
          exact absurd hcontra (by simp)
        · simp only [hdd] at hE
          rcases hnn : omega_num_fold tails (tails_key accum claim.i) dval
              (0, claim.witness.omega) (ord (claim.witness.v \ accum.v)) with nerr | nval
          · simp only [hnn] at hE
            injection hE with hE2
            obtain ⟨k, hk⟩ := omega_num_fold_error_shape tails (tails_key accum claim.i)
              dval (ord (claim.witness.v \ accum.v)) (0, claim.witness.omega) nerr hnn
            rw [← hE2, hk] at hcontra
            exact absurd hcontra (by simp)
          · simp only [hnn] at hE
            exact absurd hE (by simp)
      · rw [if_neg hne] at hE
        exact absurd hE (by simp)
    · rw [hE] at hcontra
      exact absurd hcontra (by simp)

end WitnessUpdate

/-- Concrete non-revocation claim (over `R = G1 = G2 = ℤ`) for the C5/C6 witnesses. -/
def c5claim : NonRevocationClaimSignature Int Int Int :=
  { sigma := 0, c := 0, vr_prime_prime := 0,
    witness := { sigma_i := 0, u_i := 0, g_i := 0, omega := 100, v := {1, 2, 3} },
    g_i := 0, i := 1, m2 := 0 }

/-- Concrete accumulator (index 1 still a member) for the C5 witness. -/
def c5accum : RevocationAccumulator Int := { acc := 0, v := {1}, max_claim_num := 5 }

/-- Concrete `HashSet` iteration order for the witness difference set `{2,3}`. -/
def c5ord : Finset Nat → List Nat := fun _ => [2, 3]

/-- Concrete tails: key `k` maps to the point `k`. -/
def c5tails : Nat → Option Int := fun k => some (k : Int)

/-- Witness for C5 at the concrete data above (`Δ = {2,3}`, tails `[5,4]`,
`ω' = 100 + (5−9) + (9−9) = 96`). -/
theorem C5_witness_update_witness :
    c5claim.i ∈ c5accum.v ∧ c5claim.witness.v ≠ c5accum.v ∧
    (∀ j ∈ c5claim.witness.v \ c5accum.v,
      (c5tails (tails_key c5accum c5claim.i j)).isSome) ∧
    ∃ c2, update_non_revocation_claim c5ord c5tails c5claim c5accum = .ok c2 ∧
      c2.witness.v = c5accum.v ∧ c2.witness.omega = 96 ∧ c2.sigma = c5claim.sigma := by
  have hord : (c5ord (c5claim.witness.v \ c5accum.v)).Nodup ∧
      ∀ x, x ∈ c5ord (c5claim.witness.v \ c5accum.v) ↔
        x ∈ c5claim.witness.v \ c5accum.v := by
    refine ⟨by decide, fun x => ?_⟩
    simp only [c5ord, c5claim, c5accum, List.mem_cons, List.not_mem_nil, or_false,
      Finset.mem_sdiff, Finset.mem_insert, Finset.mem_singleton]
    omega
  have h := (C5_witness_update c5ord c5tails c5claim c5accum hord
    (by decide) (by decide)).2 (by decide)
  obtain ⟨c2, hok, hv, homega, hsigma, -⟩ := h
  refine ⟨by decide, by decide, by decide, c2, hok, hv, ?_, hsigma⟩
  rw [homega]
  decide

/-- Concrete accumulator from which index 1 has been revoked, for the C6 witness. -/
def c6accum : RevocationAccumulator Int := { acc := 0, v := {2, 3}, max_claim_num := 5 }

/-- Witness for C6: at the revoked accumulator the update returns the claim
unchanged with the "Claim revoked" error; at the valid accumulator that error
does not occur. -/
theorem C6_claim_revoked_witness :
    c5claim.i ∉ c6accum.v ∧
    update_non_revocation_claim_mut c5ord c5tails c5claim c6accum =
      (c5claim, some (.invalidState "Can not update Witness. Claim revoked.")) ∧
    c5claim.i ∈ c5accum.v ∧
    (update_non_revocation_claim_mut c5ord c5tails c5claim c5accum).2 ≠
      some (.invalidState "Can not update Witness. Claim revoked.") :=
  ⟨by decide, (C6_claim_revoked c5ord c5tails c5claim c6accum).1 (by decide),
    by decide, (C6_claim_revoked c5ord c5tails c5claim c5accum).2 (by decide)⟩

/-- `IssuerRevocationPublicKey { g, g_dash, h, h0, h1, h2, htilde, h_cap, u, pk, y }`. -/
structure IssuerRevocationPublicKey (G1 G2 : Type) where
  g : G1
  g_dash : G2
  h : G1
  h0 : G1
  h1 : G1
  h2 : G1
  htilde : G1
  h_cap : G2
  u : G2
  pk : G1
  y : G2

/-- `RevocationAccumulatorPublicKey { z }`. -/
structure RevocationAccumulatorPublicKey (GT : Type) where
  z : GT

/-- `RevocationRegistryPublic { acc, key, tails }` (the `RevocationTails` wrapper
is flattened to its `tails_dash` map, the only field the prover reads). -/
structure RevocationRegistryPublic (G2 GT : Type) where
  acc : RevocationAccumulator G2
  key : RevocationAccumulatorPublicKey GT
  tails_dash : Nat → Option G2

/-- `NonRevocProofXList`: the fourteen scalars `rho, r, r', r'', r''', o, o',
m, m', t, t', m2, s, c`. -/
structure NonRevocProofXList (R : Type) where
  rho : R
  r : R
  r_prime : R
  r_prime_prime : R
  r_prime_prime_prime : R
  o : R
  o_prime : R
  m : R
  m_prime : R
  t : R
  t_prime : R
  m2 : R
  s : R
  c : R

/-- `NonRevocProofCList { e, d, a, g, w, s, u }`. -/
structure NonRevocProofCList (G1 G2 : Type) where
  e : G1
  d : G1
  a : G1
  g : G1
  w : G2
  s : G2
  u : G2

/-- `NonRevocProofTauList { t1..t8 }`; `t1,t2,t5,t6` are G1 points, the others
pairing values. -/
structure NonRevocProofTauList (G1 GT : Type) where
  t1 : G1
  t2 : G1
  t3 : GT
  t4 : GT
  t5 : G1
  t6 : G1
  t7 : GT
  t8 : GT

section Pairing

variable {R G1 G2 GT : Type} [CommRing R]
variable [AddCommGroup G1] [Module R G1] [AddCommGroup G2] [Module R G2]
variable [AddCommGroup GT] [Module R GT]

/-- A bilinear pairing over the `R`-modules `G1`, `G2`, `GT` (the source's
`Pair::pair`; GT is written additively, so the source's `mul`/`pow`/`inverse`
on pairing values are `+`/`•`/`-` here). -/
structure IsBilinear (R : Type) [CommRing R] [AddCommGroup G1] [Module R G1]
    [AddCommGroup G2] [Module R G2] [AddCommGroup GT] [Module R GT]
    (e : G1 → G2 → GT) : Prop where
  add_left : ∀ a b c, e (a + b) c = e a c + e b c
  add_right : ∀ a b c, e a (b + c) = e a b + e a c
  smul_left : ∀ (s : R) a b, e (s • a) b = s • e a b
  smul_right : ∀ (s : R) a b, e a (s • b) = s • e a b

theorem IsBilinear.neg_left {e : G1 → G2 → GT} (hb : IsBilinear R e) (a : G1) (b : G2) :
    e (-a) b = - e a b := by
  have := hb.smul_left (-1 : R) a b
  simpa [neg_smul, one_smul] using this

variable (e : G1 → G2 → GT)

/-- `Prover::_test_witness_credential`: the three §4.2 pairing identity checks,
in source order, each failing with "Issuer is sending incorrect data". -/
def test_witness_credential [DecidableEq GT]
    (r_claim : NonRevocationClaimSignature R G1 G2)
    (r_pub_key : IssuerRevocationPublicKey G1 G2)
    (r_reg : RevocationRegistryPublic G2 GT) (r_cnxt_m2 : R) :
    Except IndyCryptoError Unit :=
  let z_calc := e r_claim.witness.g_i r_reg.acc.acc - e r_pub_key.g r_claim.witness.omega
  if z_calc ≠ r_reg.key.z then
    .error (.invalidStructure "Issuer is sending incorrect data")
  else
    let pair_gg_calc := e (r_pub_key.pk + r_claim.g_i) r_claim.witness.sigma_i
    let pair_gg := e r_pub_key.g r_pub_key.g_dash
    if pair_gg_calc ≠ pair_gg then
      .error (.invalidStructure "Issuer is sending incorrect data")
    else
      let m2 := r_cnxt_m2
      let pair_h1 := e r_claim.sigma (r_pub_key.y + r_claim.c • r_pub_key.h_cap)
      let pair_h2 := e (r_pub_key.h0 + m2 • r_pub_key.h1
        + r_claim.vr_prime_prime • r_pub_key.h2 + r_claim.g_i) r_pub_key.h_cap
      if pair_h1 ≠ pair_h2 then
        .error (.invalidStructure "Issuer is sending incorrect data")
      else .ok ()

/-- `Prover::_process_non_revocation_claim`: first fold the blinding factor into
`vr''` (the mutation persists through the `&mut` even on error), then test the
witness credential.  The `m2` byte round-trip of the source is the identity. -/
def process_non_revocation_claim [DecidableEq GT]
    (r_claim : NonRevocationClaimSignature R G1 G2) (vr_prime : R)
    (r_pub_key : IssuerRevocationPublicKey G1 G2)
    (r_reg : RevocationRegistryPublic G2 GT) :
    NonRevocationClaimSignature R G1 G2 × Except IndyCryptoError Unit :=
  let r_cnxt_m2 := r_claim.m2
  let r_claim2 := { r_claim with vr_prime_prime := vr_prime + r_claim.vr_prime_prime }
  (r_claim2, test_witness_credential e r_claim2 r_pub_key r_reg r_cnxt_m2)

/-- C2: `process_non_revocation_claim` first sets `vr'' ← vr' + vr''`, then
verifies the three pairing identities (the third against the updated `vr''`);
it returns the `InvalidStructure` error "Issuer is sending incorrect data"
if and only if at least one of the three identities fails. -/
theorem C2_process_claim_signature_revocation [DecidableEq GT]
    (r_claim : NonRevocationClaimSignature R G1 G2) (vr_prime : R)
    (r_pub_key : IssuerRevocationPublicKey G1 G2)
    (r_reg : RevocationRegistryPublic G2 GT) :
    (process_non_revocation_claim e r_claim vr_prime r_pub_key r_reg).1 =
      { r_claim with vr_prime_prime := vr_prime + r_claim.vr_prime_prime } ∧
    ((process_non_revocation_claim e r_claim vr_prime r_pub_key r_reg).2 =
        .error (.invalidStructure "Issuer is sending incorrect data") ↔
      ¬ (e r_claim.witness.g_i r_reg.acc.acc - e r_pub_key.g r_claim.witness.omega
            = r_reg.key.z ∧
         e (r_pub_key.pk + r_claim.g_i) r_claim.witness.sigma_i
            = e r_pub_key.g r_pub_key.g_dash ∧
         e r_claim.sigma (r_pub_key.y + r_claim.c • r_pub_key.h_cap)
            = e (r_pub_key.h0 + r_claim.m2 • r_pub_key.h1
                + (vr_prime + r_claim.vr_prime_prime) • r_pub_key.h2
                + r_claim.g_i) r_pub_key.h_cap)) := by
  refine ⟨rfl, ?_⟩
  simp only [process_non_revocation_claim, test_witness_credential]
  split_ifs with hz hgg hh <;> simp_all

/-- Random tape of `_gen_c_list_params`: the seven `GroupOrderElement::new()` draws. -/
structure CListRand (R : Type) where
  rho : R
  r : R
  r_prime : R
  r_prime_prime : R
  r_prime_prime_prime : R
  o : R
  o_prime : R

/-- `ProofBuilder::_gen_c_list_params`: derive `m = ρ·c`, `m' = r·r''`,
`t = o·c`, `t' = o'·r''` and carry `m2`, `s = vr''`, `c` from the claim. -/
def gen_c_list_params (claim : NonRevocationClaimSignature R G1 G2) (rand : CListRand R) :
    NonRevocProofXList R :=
  { rho := rand.rho, r := rand.r, r_prime := rand.r_prime,
    r_prime_prime := rand.r_prime_prime,
    r_prime_prime_prime := rand.r_prime_prime_prime,
    o := rand.o, o_prime := rand.o_prime,
    m := rand.rho * claim.c, m_prime := rand.r * rand.r_prime_prime,
    t := rand.o * claim.c, t_prime := rand.o_prime * rand.r_prime_prime,
    m2 := claim.m2, s := claim.vr_prime_prime, c := claim.c }

/-- `ProofBuilder::_create_c_list_values`. -/
def create_c_list_values (claim : NonRevocationClaimSignature R G1 G2)
    (params : NonRevocProofXList R) (pkr : IssuerRevocationPublicKey G1 G2) :
    NonRevocProofCList G1 G2 :=
  { e := params.rho • pkr.h + params.o • pkr.htilde,
    d := params.r • pkr.g + params.o_prime • pkr.htilde,
    a := claim.sigma + params.rho • pkr.htilde,
    g := claim.g_i + params.r • pkr.htilde,
    w := claim.witness.omega + params.r_prime • pkr.h_cap,
    s := claim.witness.sigma_i + params.r_prime_prime • pkr.h_cap,
    u := claim.witness.u_i + params.r_prime_prime_prime • pkr.h_cap }

/-- `ProofBuilder::create_tau_list_values` (§6 `t1..t8`), with the source's
`is_inf` normalisation on `t2`, `t6`. -/
def create_tau_list_values [DecidableEq G1]
    (pk_r : IssuerRevocationPublicKey G1 G2) (accumulator : RevocationAccumulator G2)
    (params : NonRevocProofXList R) (proof_c : NonRevocProofCList G1 G2) :
    NonRevocProofTauList G1 GT :=
  let t1 := params.rho • pk_r.h + params.o • pk_r.htilde
  let t2p := params.c • proof_c.e + (-params.m) • pk_r.h + (-params.t) • pk_r.htilde
  let t2 := if t2p = 0 then (0 : G1) else t2p
  let t3 := params.c • e proof_c.a pk_r.h_cap + params.r • e pk_r.htilde pk_r.h_cap
    - (params.rho • e pk_r.htilde pk_r.y + params.m • e pk_r.htilde pk_r.h_cap
       + params.m2 • e pk_r.h1 pk_r.h_cap + params.s • e pk_r.h2 pk_r.h_cap)
  let t4 := params.r • e pk_r.htilde accumulator.acc
    + params.r_prime • e (-pk_r.g) pk_r.h_cap
  let t5 := params.r • pk_r.g + params.o_prime • pk_r.htilde
  let t6p := params.r_prime_prime • proof_c.d + (-params.m_prime) • pk_r.g
    + (-params.t_prime) • pk_r.htilde
  let t6 := if t6p = 0 then (0 : G1) else t6p
  let t7 := params.r_prime_prime • e (pk_r.pk + proof_c.g) pk_r.h_cap
    + (-params.m_prime) • e pk_r.htilde pk_r.h_cap + params.r • e pk_r.htilde proof_c.s
  let t8 := params.r • e pk_r.htilde pk_r.u
    + params.r_prime_prime_prime • e (-pk_r.g) pk_r.h_cap
  { t1, t2, t3, t4, t5, t6, t7, t8 }

/-- `ProofBuilder::create_tau_list_expected_values` (§6 expected tau). -/
def create_tau_list_expected_values
    (pk_r : IssuerRevocationPublicKey G1 G2) (accumulator : RevocationAccumulator G2)
    (accum_pk : RevocationAccumulatorPublicKey GT) (proof_c : NonRevocProofCList G1 G2) :
    NonRevocProofTauList G1 GT :=
  { t1 := proof_c.e,
    t2 := (0 : G1),
    t3 := e (pk_r.h0 + proof_c.g) pk_r.h_cap - e proof_c.a pk_r.y,
    t4 := e proof_c.g accumulator.acc - (e pk_r.g proof_c.w + accum_pk.z),
    t5 := proof_c.d,
    t6 := (0 : G1),
    t7 := e (pk_r.pk + proof_c.g) proof_c.s - e pk_r.g pk_r.g_dash,
    t8 := e proof_c.g pk_r.u - e pk_r.g proof_c.u }

/-- C7 (amended): for every revocation claim whose three §4.2 pairing identities
hold, whose witness additionally satisfies `witness.g_i = g_i` and
`e(g_i, u) = e(g, u_i)` (true for honestly issued witnesses, but not implied by
the three identities), and for the parameter list generated from the claim by
`_gen_c_list_params`, computing the C-list and then the τ-list from those same
params yields exactly the eight values of `create_tau_list_expected_values`. -/
theorem C7_c_tau_round_trip [DecidableEq G1]
    (hb : IsBilinear R e)
    (pk_r : IssuerRevocationPublicKey G1 G2) (acc : RevocationAccumulator G2)
    (acc_pk : RevocationAccumulatorPublicKey GT)
    (claim : NonRevocationClaimSignature R G1 G2) (rand : CListRand R)
    (h1 : e claim.witness.g_i acc.acc - e pk_r.g claim.witness.omega = acc_pk.z)
    (h2 : e (pk_r.pk + claim.g_i) claim.witness.sigma_i = e pk_r.g pk_r.g_dash)
    (h3 : e claim.sigma (pk_r.y + claim.c • pk_r.h_cap) =
      e (pk_r.h0 + claim.m2 • pk_r.h1 + claim.vr_prime_prime • pk_r.h2 + claim.g_i)
        pk_r.h_cap)
    (h4 : e claim.g_i pk_r.u = e pk_r.g claim.witness.u_i)
    (h5 : claim.witness.g_i = claim.g_i) :
    create_tau_list_values e pk_r acc (gen_c_list_params claim rand)
        (create_c_list_values claim (gen_c_list_params claim rand) pk_r) =
      create_tau_list_expected_values e pk_r acc acc_pk
        (create_c_list_values claim (gen_c_list_params claim rand) pk_r) := by
  rw [h5] at h1
  simp only [create_tau_list_values, create_c_list_values, gen_c_list_params,
    create_tau_list_expected_values, NonRevocProofTauList.mk.injEq]
  refine ⟨?_, ?_, ?_, ?_, ?_, ?_, ?_, ?_⟩
  · trivial
  · split
    · rfl
    · next hA => exact absurd (by module) hA
  · have h3' : e claim.sigma pk_r.y + claim.c • e claim.sigma pk_r.h_cap =
        e pk_r.h0 pk_r.h_cap + claim.m2 • e pk_r.h1 pk_r.h_cap
        + claim.vr_prime_prime • e pk_r.h2 pk_r.h_cap + e claim.g_i pk_r.h_cap := by
      simpa [hb.add_left, hb.add_right, hb.smul_left, hb.smul_right, add_assoc] using h3
    have hkey : claim.c • e claim.sigma pk_r.h_cap =
        e pk_r.h0 pk_r.h_cap + claim.m2 • e pk_r.h1 pk_r.h_cap
        + claim.vr_prime_prime • e pk_r.h2 pk_r.h_cap + e claim.g_i pk_r.h_cap
        - e claim.sigma pk_r.y := eq_sub_of_add_eq' h3'
    simp only [hb.add_left, hb.add_right, hb.smul_left, hb.smul_right, smul_add, smul_smul]
    rw [hkey]
    module
  · simp only [hb.add_left, hb.add_right, hb.smul_left, hb.smul_right, hb.neg_left]
    rw [← h1]
    module
  · trivial
  · split
    · rfl
    · next hA => exact absurd (by module) hA
  · have h2' : e pk_r.pk claim.witness.sigma_i + e claim.g_i claim.witness.sigma_i =
        e pk_r.g pk_r.g_dash := by
      simpa [hb.add_left] using h2
    simp only [hb.add_left, hb.add_right, hb.smul_left, hb.smul_right, smul_add, smul_smul]
    rw [← h2']
    module
  · simp only [hb.add_left, hb.add_right, hb.smul_left, hb.smul_right, hb.neg_left]
    rw [h4]
    module

end Pairing

/-- The integer pairing `e(a,b) = a·b` on `ℤ`-modules `G1 = G2 = GT = ℤ`,
used to instantiate the abstract pairing on concrete data. -/
def zpair : Int → Int → Int := fun a b => a * b

theorem zpair_bilinear : IsBilinear Int zpair := by
  constructor <;> intros <;> simp [zpair, smul_eq_mul] <;> ring

/-- Revocation public key of the C7 counterexample. -/
def c7pk : IssuerRevocationPublicKey Int Int :=
  { g := 0, g_dash := 0, h := 0, h0 := 0, h1 := 0, h2 := 0, htilde := 0,
    h_cap := 0, u := 1, pk := 0, y := 0 }

/-- Claim of the C7 counterexample: its three §4.2 identities hold, but its
witness `u_i` (which no identity constrains) is inconsistent with `u`. -/
def c7claim : NonRevocationClaimSignature Int Int Int :=
  { sigma := 0, c := 0, vr_prime_prime := 0,
    witness := { sigma_i := 0, u_i := 0, g_i := 0, omega := 0, v := ∅ },
    g_i := 1, i := 0, m2 := 0 }

/-- Accumulator of the C7 counterexample. -/
def c7acc : RevocationAccumulator Int := { acc := 0, v := ∅, max_claim_num := 0 }

/-- Accumulator public key of the C7 counterexample. -/
def c7accpk : RevocationAccumulatorPublicKey Int := { z := 0 }

/-- Random tape (all zero) of the C7 counterexample. -/
def c7rand : CListRand Int :=
  { rho := 0, r := 0, r_prime := 0, r_prime_prime := 0, r_prime_prime_prime := 0,
    o := 0, o_prime := 0 }

/-- C7 counterexample: over the bilinear pairing `zpair` all three §4.2
identities hold for `c7claim`, and the params are exactly those generated by
`_gen_c_list_params`, yet the computed τ-list differs from
`create_tau_list_expected_values` (they disagree at `t8`, because the three
identities do not constrain `witness.u_i` against `u`). -/
theorem C7_c_tau_round_trip_counterexample :
    IsBilinear Int zpair ∧
    (zpair c7claim.witness.g_i c7acc.acc - zpair c7pk.g c7claim.witness.omega
      = c7accpk.z) ∧
    (zpair (c7pk.pk + c7claim.g_i) c7claim.witness.sigma_i
      = zpair c7pk.g c7pk.g_dash) ∧
    (zpair c7claim.sigma (c7pk.y + c7claim.c • c7pk.h_cap)
      = zpair (c7pk.h0 + c7claim.m2 • c7pk.h1
          + c7claim.vr_prime_prime • c7pk.h2 + c7claim.g_i) c7pk.h_cap) ∧
    create_tau_list_values zpair c7pk c7acc (gen_c_list_params c7claim c7rand)
        (create_c_list_values c7claim (gen_c_list_params c7claim c7rand) c7pk) ≠
      create_tau_list_expected_values zpair c7pk c7acc c7accpk
        (create_c_list_values c7claim (gen_c_list_params c7claim c7rand) c7pk) := by
  refine ⟨zpair_bilinear, by decide, by decide, by decide, ?_⟩
  intro hEq
  have h8 := congrArg NonRevocProofTauList.t8 hEq
  simp [create_tau_list_values, create_tau_list_expected_values, gen_c_list_params,
    create_c_list_values, zpair, c7pk, c7claim, c7acc, c7accpk, c7rand] at h8

/-- Revocation public key of the C7 witness (honest data). -/
def c7wpk : IssuerRevocationPublicKey Int Int :=
  { g := 1, g_dash := 6, h := 0, h0 := 0, h1 := 0, h2 := 0, htilde := 0,
    h_cap := 0, u := 3, pk := 1, y := 0 }

/-- Claim of the C7 witness, satisfying all five hypotheses. -/
def c7wclaim : NonRevocationClaimSignature Int Int Int :=
  { sigma := 7, c := 0, vr_prime_prime := 0,
    witness := { sigma_i := 2, u_i := 6, g_i := 2, omega := 4, v := ∅ },
    g_i := 2, i := 0, m2 := 0 }

/-- Accumulator of the C7 witness. -/
def c7wacc : RevocationAccumulator Int := { acc := 5, v := ∅, max_claim_num := 0 }

/-- Accumulator public key of the C7 witness. -/
def c7waccpk : RevocationAccumulatorPublicKey Int := { z := 6 }

/-- Random tape of the C7 witness. -/
def c7wrand : CListRand Int :=
  { rho := 1, r := 2, r_prime := 3, r_prime_prime := 4, r_prime_prime_prime := 5,
    o := 6, o_prime := 7 }

/-- Witness for C7 at honest concrete data. -/
theorem C7_c_tau_round_trip_witness :
    (zpair c7wclaim.witness.g_i c7wacc.acc - zpair c7wpk.g c7wclaim.witness.omega
      = c7waccpk.z) ∧
    (zpair (c7wpk.pk + c7wclaim.g_i) c7wclaim.witness.sigma_i
      = zpair c7wpk.g c7wpk.g_dash) ∧
    (zpair c7wclaim.sigma (c7wpk.y + c7wclaim.c • c7wpk.h_cap)
      = zpair (c7wpk.h0 + c7wclaim.m2 • c7wpk.h1
          + c7wclaim.vr_prime_prime • c7wpk.h2 + c7wclaim.g_i) c7wpk.h_cap) ∧
    (zpair c7wclaim.g_i c7wpk.u = zpair c7wpk.g c7wclaim.witness.u_i) ∧
    c7wclaim.witness.g_i = c7wclaim.g_i ∧
    create_tau_list_values zpair c7wpk c7wacc (gen_c_list_params c7wclaim c7wrand)
        (create_c_list_values c7wclaim (gen_c_list_params c7wclaim c7wrand) c7wpk) =
      create_tau_list_expected_values zpair c7wpk c7wacc c7waccpk
        (create_c_list_values c7wclaim (gen_c_list_params c7wclaim c7wrand) c7wpk) :=
  ⟨by decide, by decide, by decide, by decide, by decide,
    C7_c_tau_round_trip zpair zpair_bilinear c7wpk c7wacc c7waccpk c7wclaim c7wrand
      (by decide) (by decide) (by decide) (by decide) (by decide)⟩

/-- `PrimaryInitProof { eq_proof, ge_proofs }`. -/
structure PrimaryInitProof where
  eq_proof : PrimaryEqualInitProof
  ge_proofs : List PrimaryPredicateGEInitProof

/-- `NonRevocInitProof { c_list_params, tau_list_params, c_list, tau_list }`. -/
structure NonRevocInitProof (R G1 G2 GT : Type) where
  c_list_params : NonRevocProofXList R
  tau_list_params : NonRevocProofXList R
  c_list : NonRevocProofCList G1 G2
  tau_list : NonRevocProofTauList G1 GT

/-- `ClaimSignature { p_claim, r_claim }`. -/
structure ClaimSignature (R G1 G2 : Type) where
  p_claim : PrimaryClaimSignature
  r_claim : Option (NonRevocationClaimSignature R G1 G2)

/-- `IssuerPublicKey { p_key, r_key }`. -/
structure IssuerPublicKey (G1 G2 : Type) where
  p_key : IssuerPrimaryPublicKey
  r_key : Option (IssuerRevocationPublicKey G1 G2)

/-- `InitProof` (one entry of the builder's map). -/
structure InitProof (R G1 G2 GT : Type) where
  primary_init_proof : PrimaryInitProof
  non_revoc_init_proof : Option (NonRevocInitProof R G1 G2 GT)
  claim_values : ClaimValues
  sub_proof_request : SubProofRequest
  claim_schema : ClaimSchema

/-- `ProofBuilder { m1_tilde, init_proofs, c_list, tau_list }`; the `HashMap`
of init proofs is an association list with insert-overwrite semantics. -/
structure ProofBuilder (R G1 G2 GT : Type) where
  m1_tilde : Int
  init_proofs : List (String × InitProof R G1 G2 GT)
  c_list : List (List Nat)
  tau_list : List (List Nat)

/-- `NonRevocProof { x_list, c_list }`. -/
structure NonRevocProof (R G1 G2 : Type) where
  x_list : NonRevocProofXList R
  c_list : NonRevocProofCList G1 G2

/-- `PrimaryProof { eq_proof, ge_proofs }`. -/
structure PrimaryProof where
  eq_proof : PrimaryEqualProof
  ge_proofs : List PrimaryPredicateGEProof

/-- `SubProof { primary_proof, non_revoc_proof }`. -/
structure SubProof (R G1 G2 : Type) where
  primary_proof : PrimaryProof
  non_revoc_proof : Option (NonRevocProof R G1 G2)

/-- `AggregatedProof { c_hash, c_list }`. -/
structure AggregatedProof where
  c_hash : Int
  c_list : List (List Nat)

/-- `Proof { proofs, aggregated_proof }`. -/
structure Proof (R G1 G2 : Type) where
  proofs : List (String × SubProof R G1 G2)
  aggregated_proof : AggregatedProof

/-- `HashMap::insert` on an association list: remove any old binding, prepend. -/
def alist_insert {α : Type} (l : List (String × α)) (k : String) (v : α) :
    List (String × α) :=
  (k, v) :: l.filter (fun p => p.1 ≠ k)

/-- `HashMap::get` on an association list. -/
def alist_lookup {α : Type} (l : List (String × α)) (k : String) : Option α :=
  (l.find? (fun p => p.1 == k)).map Prod.snd

/-- The abstract collaborators of the builder: the pairing, the `HashSet`
iteration order, and the helpers of the missing `cl/helpers.rs` /
`cl/constants.rs` / `cl/mod.rs` (kept opaque: `calc_teq`, `calc_tge`,
`get_hash_as_int`, the `as_c_list` / `as_tau_list` byte serializers,
`group_element_to_bignum` / `bignum_to_group_element` and `LARGE_E_START`).
No claim inspects their outputs, only how the builder routes them. -/
structure ProverCtx (R G1 G2 GT : Type) where
  e : G1 → G2 → GT
  ord : Finset Nat → List Nat
  large_e_start : Nat
  calc_teq : IssuerPrimaryPublicKey → Int → Int → Int → Smap → Int → Int →
    Finset String → Int
  calc_tge : IssuerPrimaryPublicKey → Smap → Smap → Int → Int → Smap → List Int
  as_c_list_nr : NonRevocInitProof R G1 G2 GT → List (List Nat)
  as_tau_list_nr : NonRevocInitProof R G1 G2 GT → List (List Nat)
  as_c_list_prim : PrimaryInitProof → List (List Nat)
  as_tau_list_prim : PrimaryInitProof → List (List Nat)
  g2bn : R → Int
  bn2g : Int → R
  get_hash_as_int : List (List Nat) → Int
  nonce_bytes : Int → List Nat

/-- Random tape of one `_init_eq_proof` call. -/
structure EqRand where
  m2_tilde : Int
  r : Int
  e_tilde : Int
  v_tilde : Int
  m_tilde_of : String → Int

/-- Random tape of one `add_sub_proof_request` call. -/
structure AddRand (R : Type) where
  nr_c : CListRand R
  nr_t : NonRevocProofXList R
  eq : EqRand
  ge : Nat → GERand

section Builder

variable {R G1 G2 GT : Type} [CommRing R]
variable [AddCommGroup G1] [Module R G1] [AddCommGroup G2] [Module R G2]
variable [AddCommGroup GT] [Module R GT] [DecidableEq G1]
variable (ctx : ProverCtx R G1 G2 GT)

/-- `ProofBuilder::_gen_tau_list_params`: fourteen fresh draws. -/
def gen_tau_list_params (rand : NonRevocProofXList R) : NonRevocProofXList R := rand

/-- `ProofBuilder::_init_eq_proof`. -/
def init_eq_proof (pk : IssuerPrimaryPublicKey) (c1 : PrimaryClaimSignature)
    (claim_schema : ClaimSchema) (sub_proof_request : SubProofRequest)
    (m1_tilde : Int) (m2_t : Option Int) (rand : EqRand) : PrimaryEqualInitProof :=
  let m2_tilde := m2_t.getD rand.m2_tilde
  let r := rand.r
  let e_tilde := rand.e_tilde
  let v_tilde := rand.v_tilde
  let unrevealed_attrs := unrevealedAttrs claim_schema sub_proof_request
  let m_tilde : Smap := fun k =>
    if k ∈ unrevealed_attrs then some (rand.m_tilde_of k) else none
  let a_prime := mod_exp pk.s r pk.n * c1.a % pk.n
  let v_prime := c1.v - c1.e * r
  let e_prime := c1.e - 2 ^ ctx.large_e_start
  let t := ctx.calc_teq pk a_prime e_tilde v_tilde m_tilde m1_tilde m2_tilde
    unrevealed_attrs
  { a_prime, t, e_tilde, e_prime, v_tilde, v_prime, m_tilde, m1_tilde, m2_tilde,
    m2 := c1.m_2 }

/-- The `for predicate in predicates` loop of `_init_primary_proof`, indexing
the per-predicate random tape. -/
def init_ge_proofs_loop (mtilde : Smap) (claim_values : ClaimValues)
    (pk : IssuerPrimaryPublicKey) (rands : Nat → GERand) :
    Nat → List Predicate → Except IndyCryptoError (List PrimaryPredicateGEInitProof)
  | _, [] => .ok []
  | idx, p :: ps => do
    let gp ← init_ge_proof ctx.calc_tge pk mtilde claim_values p (rands idx)
    let rest ← init_ge_proofs_loop mtilde claim_values pk rands (idx + 1) ps
    .ok (gp :: rest)

/-- `ProofBuilder::_init_primary_proof`. -/
def init_primary_proof (pk : IssuerPrimaryPublicKey) (c1 : PrimaryClaimSignature)
    (claim_values : ClaimValues) (claim_schema : ClaimSchema)
    (sub_proof_request : SubProofRequest) (m1_t : Int) (m2_t : Option Int)
    (rand : AddRand R) : Except IndyCryptoError PrimaryInitProof := do
  let eq_proof := init_eq_proof ctx pk c1 claim_schema sub_proof_request m1_t m2_t rand.eq
  let ge_proofs ← init_ge_proofs_loop ctx eq_proof.m_tilde claim_values pk rand.ge 0
    sub_proof_request.predicates
  .ok { eq_proof, ge_proofs }

/-- `ProofBuilder::_init_non_revocation_proof`: runs the witness update on the
claim it is given (the caller passes a clone), then builds the C-list and
τ-list.  Mirroring the source's `&mut claim`, the updated claim is returned
alongside the proof. -/
def init_non_revocation_proof (claim : NonRevocationClaimSignature R G1 G2)
    (rev_reg : RevocationRegistryPublic G2 GT)
    (pkr : IssuerRevocationPublicKey G1 G2) (crand : CListRand R)
    (trand : NonRevocProofXList R) :
    Except IndyCryptoError
      (NonRevocInitProof R G1 G2 GT × NonRevocationClaimSignature R G1 G2) := do
  let claim2 ← update_non_revocation_claim ctx.ord rev_reg.tails_dash claim rev_reg.acc
  let c_list_params := gen_c_list_params claim2 crand
  let proof_c_list := create_c_list_values claim2 c_list_params pkr
  let tau_list_params := gen_tau_list_params trand
  let proof_tau_list := create_tau_list_values ctx.e pkr rev_reg.acc tau_list_params
    proof_c_list
  .ok ({ c_list_params, tau_list_params, c_list := proof_c_list,
         tau_list := proof_tau_list }, claim2)

/-- `ProofBuilder::new_proof_builder` (the `m1_tilde` draw is the tape argument). -/
def new_proof_builder (m1_tilde : Int) : ProofBuilder R G1 G2 GT :=
  { m1_tilde, init_proofs := [], c_list := [], tau_list := [] }

/-- The revocation block of `add_sub_proof_request` (source lines 161-170):
when claim, registry and key all carry a revocation part, run the
non-revocation init on a clone of the revocation claim; the updated clone is
dropped, so the caller's claim is untouched. -/
def nr_part (claim : ClaimSignature R G1 G2)
    (r_reg : Option (RevocationRegistryPublic G2 GT))
    (pub_key : IssuerPublicKey G1 G2) (rand : AddRand R) :
    Except IndyCryptoError (Option (NonRevocInitProof R G1 G2 GT)) :=
  match claim.r_claim, r_reg, pub_key.r_key with
  | some r_claim, some r_reg, some r_pub_key => do
    let pr ← init_non_revocation_proof ctx r_claim r_reg r_pub_key rand.nr_c rand.nr_t
    .ok (some pr.1)
  | _, _, _ => .ok none

/-- `ProofBuilder::add_sub_proof_request`.  The non-revocation bytes (when
present) are appended first, then the primary init's bytes; finally the
`InitProof` is inserted under `key_id`. -/
def add_sub_proof_request (b : ProofBuilder R G1 G2 GT) (key_id : String)
    (claim : ClaimSignature R G1 G2) (claim_values : ClaimValues)
    (pub_key : IssuerPublicKey G1 G2)
    (r_reg : Option (RevocationRegistryPublic G2 GT))
    (sub_proof_request : SubProofRequest) (claim_schema : ClaimSchema)
    (rand : AddRand R) :
    Except IndyCryptoError (ProofBuilder R G1 G2 GT) := do
  let nr ← nr_part ctx claim r_reg pub_key rand
  let c_list1 := b.c_list ++ (nr.map ctx.as_c_list_nr).getD []
  let tau_list1 := b.tau_list ++ (nr.map ctx.as_tau_list_nr).getD []
  let m2_tilde := nr.map (fun pr => ctx.g2bn pr.tau_list_params.m2)
  let primary_init_proof ← init_primary_proof ctx pub_key.p_key claim.p_claim
    claim_values claim_schema sub_proof_request b.m1_tilde m2_tilde rand
  let c_list2 := c_list1 ++ ctx.as_c_list_prim primary_init_proof
  let tau_list2 := tau_list1 ++ ctx.as_tau_list_prim primary_init_proof
  let init_proof : InitProof R G1 G2 GT :=
    { primary_init_proof, non_revoc_init_proof := nr, claim_values,
      sub_proof_request, claim_schema }
  let b2 : ProofBuilder R G1 G2 GT := { b with c_list := c_list2, tau_list := tau_list2, init_proofs := alist_insert b.init_proofs key_id init_proof }
  .ok b2

/-- The source additionally takes `claim: &ClaimSignature` (an immutable
borrow): the caller-visible claim after the call is the argument itself. -/
def add_sub_proof_request_mut (b : ProofBuilder R G1 G2 GT) (key_id : String)
    (claim : ClaimSignature R G1 G2) (claim_values : ClaimValues)
    (pub_key : IssuerPublicKey G1 G2)
    (r_reg : Option (RevocationRegistryPublic G2 GT))
    (sub_proof_request : SubProofRequest) (claim_schema : ClaimSchema)
    (rand : AddRand R) :
    Except IndyCryptoError (ProofBuilder R G1 G2 GT × ClaimSignature R G1 G2) :=
  (add_sub_proof_request ctx b key_id claim claim_values pub_key r_reg
    sub_proof_request claim_schema rand).map (fun b2 => (b2, claim))

/-- `ProofBuilder::_finalize_non_revocation_proof`:
`x = tau_x − (c_h mod q)·c_x` for each of the fourteen scalar pairs. -/
def finalize_non_revocation_proof (init_proof : NonRevocInitProof R G1 G2 GT)
    (c_h : Int) : NonRevocProof R G1 G2 :=
  let ch := ctx.bn2g c_h
  let tp := init_proof.tau_list_params
  let cp := init_proof.c_list_params
  { x_list :=
    { rho := tp.rho - ch * cp.rho, r := tp.r - ch * cp.r,
      r_prime := tp.r_prime - ch * cp.r_prime,
      r_prime_prime := tp.r_prime_prime - ch * cp.r_prime_prime,
      r_prime_prime_prime := tp.r_prime_prime_prime - ch * cp.r_prime_prime_prime,
      o := tp.o - ch * cp.o, o_prime := tp.o_prime - ch * cp.o_prime,
      m := tp.m - ch * cp.m, m_prime := tp.m_prime - ch * cp.m_prime,
      t := tp.t - ch * cp.t, t_prime := tp.t_prime - ch * cp.t_prime,
      m2 := tp.m2 - ch * cp.m2, s := tp.s - ch * cp.s, c := tp.c - ch * cp.c },
    c_list := init_proof.c_list }

/-- `ProofBuilder::_finalize_primary_proof`. -/
def finalize_primary_proof (ms : Int) (init_proof : PrimaryInitProof) (c_h : Int)
    (claim_schema : ClaimSchema) (claim_values : ClaimValues)
    (sub_proof_request : SubProofRequest) :
    Except IndyCryptoError PrimaryProof := do
  let eq_proof ← finalize_eq_proof ms init_proof.eq_proof c_h claim_schema
    claim_values sub_proof_request
  let ge_proofs ← init_proof.ge_proofs.mapM (fun gip => finalize_ge_proof c_h gip eq_proof)
  .ok { eq_proof, ge_proofs }

/-- `ProofBuilder::finalize`: hash `tau_list ‖ c_list ‖ nonce` once into `c_h`,
finalize every stored init proof, emit the `Proof` with the aggregated hash and
the builder's `c_list`. -/
def finalize (b : ProofBuilder R G1 G2 GT) (nonce : Int) (ms : Int) :
    Except IndyCryptoError (Proof R G1 G2) := do
  let values := b.tau_list ++ b.c_list ++ [ctx.nonce_bytes nonce]
  let c_h := ctx.get_hash_as_int values
  let proofs ← b.init_proofs.mapM (fun kv => do
    let init_proof := kv.2
    let non_revoc_proof := init_proof.non_revoc_init_proof.map
      (fun nr => finalize_non_revocation_proof ctx nr c_h)
    let primary_proof ← finalize_primary_proof ms init_proof.primary_init_proof c_h
      init_proof.claim_schema init_proof.claim_values init_proof.sub_proof_request
    .ok (kv.1, SubProof.mk primary_proof non_revoc_proof))
  .ok { proofs, aggregated_proof := { c_hash := c_h, c_list := b.c_list } }

/-- The source's `finalize` borrows the builder via `&mut self` and assigns
none of its fields; the builder passed on to the caller is unchanged. -/
def finalize_mut (b : ProofBuilder R G1 G2 GT) (nonce : Int) (ms : Int) :
    Except IndyCryptoError (Proof R G1 G2 × ProofBuilder R G1 G2 GT) :=
  (finalize ctx b nonce ms).map (fun p => (p, b))

/-- The arguments of one `add_sub_proof_request` call, bundled. -/
structure CallSpec (R G1 G2 GT : Type) where
  key_id : String
  claim : ClaimSignature R G1 G2
  claim_values : ClaimValues
  pub_key : IssuerPublicKey G1 G2
  r_reg : Option (RevocationRegistryPublic G2 GT)
  sub_proof_request : SubProofRequest
  claim_schema : ClaimSchema
  rand : AddRand R

/-- Run one bundled `add_sub_proof_request` call. -/
def run_add (b : ProofBuilder R G1 G2 GT) (s : CallSpec R G1 G2 GT) :
    Except IndyCryptoError (ProofBuilder R G1 G2 GT) :=
  add_sub_proof_request ctx b s.key_id s.claim s.claim_values s.pub_key s.r_reg
    s.sub_proof_request s.claim_schema s.rand

/-- Run a sequence of `add_sub_proof_request` calls. -/
def run_adds (b : ProofBuilder R G1 G2 GT) (calls : List (CallSpec R G1 G2 GT)) :
    Except IndyCryptoError (ProofBuilder R G1 G2 GT) :=
  calls.foldlM (run_add ctx) b

/-- The optional non-revocation init proof one call produces (before the
primary part), as a function of the call's arguments alone. -/
def call_nr (s : CallSpec R G1 G2 GT) :
    Except IndyCryptoError (Option (NonRevocInitProof R G1 G2 GT)) :=
  nr_part ctx s.claim s.r_reg s.pub_key s.rand

/-- The `InitProof` one call inserts, as a function of `m1_tilde` and the call. -/
def call_init_proof (m1t : Int) (s : CallSpec R G1 G2 GT) :
    Except IndyCryptoError (InitProof R G1 G2 GT) := do
  let nr ← call_nr ctx s
  let primary_init_proof ← init_primary_proof ctx s.pub_key.p_key s.claim.p_claim
    s.claim_values s.claim_schema s.sub_proof_request m1t
    (nr.map (fun pr => ctx.g2bn pr.tau_list_params.m2)) s.rand
  .ok { primary_init_proof, non_revoc_init_proof := nr,
        claim_values := s.claim_values, sub_proof_request := s.sub_proof_request,
        claim_schema := s.claim_schema }

/-- The `tau_list` bytes one call appends: non-revocation bytes first (when
present), then the primary bytes. -/
def call_tau_bytes (m1t : Int) (s : CallSpec R G1 G2 GT) :
    Except IndyCryptoError (List (List Nat)) := do
  let ip ← call_init_proof ctx m1t s
  .ok ((ip.non_revoc_init_proof.map ctx.as_tau_list_nr).getD []
    ++ ctx.as_tau_list_prim ip.primary_init_proof)

/-- The `c_list` bytes one call appends: non-revocation bytes first (when
present), then the primary bytes. -/
def call_c_bytes (m1t : Int) (s : CallSpec R G1 G2 GT) :
    Except IndyCryptoError (List (List Nat)) := do
  let ip ← call_init_proof ctx m1t s
  .ok ((ip.non_revoc_init_proof.map ctx.as_c_list_nr).getD []
    ++ ctx.as_c_list_prim ip.primary_init_proof)

theorem alist_lookup_insert {α : Type} (l : List (String × α)) (k : String) (v : α) :
    alist_lookup (alist_insert l k v) k = some v := by
  simp [alist_lookup, alist_insert, List.find?_cons_of_pos]

theorem alist_insert_count {α : Type} (l : List (String × α)) (k : String) (v : α) :
    ((alist_insert l k v).map Prod.fst).count k = 1 := by
  simp only [alist_insert, List.map_cons, List.count_cons_self]
  have : k ∉ (l.filter (fun p => p.1 ≠ k)).map Prod.fst := by
    intro hmem
    obtain ⟨p, hp, hpk⟩ := List.mem_map.mp hmem
    have := List.of_mem_filter hp
    simp only [decide_eq_true_eq] at this
    exact this hpk
  rw [List.count_eq_zero.mpr this]

theorem run_add_ok (b : ProofBuilder R G1 G2 GT) (s : CallSpec R G1 G2 GT)
    (b' : ProofBuilder R G1 G2 GT) (h : run_add ctx b s = .ok b') :
    ∃ tb cb ip, call_tau_bytes ctx b.m1_tilde s = .ok tb ∧
      call_c_bytes ctx b.m1_tilde s = .ok cb ∧
      call_init_proof ctx b.m1_tilde s = .ok ip ∧
      b'.m1_tilde = b.m1_tilde ∧
      b'.tau_list = b.tau_list ++ tb ∧
      b'.c_list = b.c_list ++ cb ∧
      b'.init_proofs = alist_insert b.init_proofs s.key_id ip := by
  unfold run_add add_sub_proof_request at h
  simp only [bind, Except.bind] at h
  rcases hnr : nr_part ctx s.claim s.r_reg s.pub_key s.rand with e1 | nr
  · simp [hnr] at h
  · simp only [hnr] at h
    rcases hp : init_primary_proof ctx s.pub_key.p_key s.claim.p_claim s.claim_values
        s.claim_schema s.sub_proof_request b.m1_tilde
        (nr.map (fun pr => ctx.g2bn pr.tau_list_params.m2)) s.rand with e2 | prim
    · simp [hp] at h
    · simp only [hp] at h
      rw [Except.ok.injEq] at h
      subst h
      refine ⟨(nr.map ctx.as_tau_list_nr).getD [] ++ ctx.as_tau_list_prim prim,
        (nr.map ctx.as_c_list_nr).getD [] ++ ctx.as_c_list_prim prim,
        _, ?_, ?_, ?_, rfl, ?_, ?_, rfl⟩
      · simp only [call_tau_bytes, call_init_proof, call_nr, hnr, hp, bind, Except.bind]
      · simp only [call_c_bytes, call_init_proof, call_nr, hnr, hp, bind, Except.bind]
      · simp only [call_init_proof, call_nr, hnr, hp, bind, Except.bind]
      · simp [List.append_assoc]
      · simp [List.append_assoc]

theorem run_adds_ok :
    ∀ (calls : List (CallSpec R G1 G2 GT)) (b b' : ProofBuilder R G1 G2 GT),
    run_adds ctx b calls = .ok b' →
    ∃ tbs cbs, calls.mapM (call_tau_bytes ctx b.m1_tilde) = .ok tbs ∧
      calls.mapM (call_c_bytes ctx b.m1_tilde) = .ok cbs ∧
      b'.m1_tilde = b.m1_tilde ∧
      b'.tau_list = b.tau_list ++ tbs.flatten ∧
      b'.c_list = b.c_list ++ cbs.flatten := by
  intro calls
  induction calls with
  | nil =>
    intro b b' h
    simp only [run_adds, List.foldlM_nil] at h
    have hb : b' = b := by
      have : (pure b : Except IndyCryptoError (ProofBuilder R G1 G2 GT)) = .ok b := rfl
      rw [this, Except.ok.injEq] at h
      exact h.symm
    subst hb
    exact ⟨[], [], rfl, rfl, rfl, by simp, by simp⟩
  | cons s cs ih =>
    intro b b' h
    simp only [run_adds, List.foldlM_cons, bind, Except.bind] at h
    rcases h1 : run_add ctx b s with e1 | b1
    · simp [h1] at h
    · simp only [h1] at h
      obtain ⟨tb, cb, ip, htb, hcb, hip, hm1, htau, hc, hins⟩ := run_add_ok ctx b s b1 h1
      obtain ⟨tbs, cbs, htbs, hcbs, hm1s, htaus, hcs⟩ := ih b1 b' h
      rw [hm1] at htbs hcbs
      refine ⟨tb :: tbs, cb :: cbs, ?_, ?_, by rw [hm1s, hm1], ?_, ?_⟩
      · simp only [List.mapM_cons, htb, htbs, bind, Except.bind, pure, Except.pure]
      · simp only [List.mapM_cons, hcb, hcbs, bind, Except.bind, pure, Except.pure]
      · rw [htaus, htau]
        simp [List.append_assoc]
      · rw [hcs, hc]
        simp [List.append_assoc]

theorem mapM_subproofs_keys {α β : Type} (f : String × α → Except IndyCryptoError (String × β))
    (hf : ∀ kv r, f kv = .ok r → r.1 = kv.1) :
    ∀ (l : List (String × α)) (res : List (String × β)),
    l.mapM f = .ok res → res.map Prod.fst = l.map Prod.fst := by
  intro l
  induction l with
  | nil =>
    intro res h
    simp only [List.mapM_nil] at h
    have : (pure [] : Except IndyCryptoError (List (String × β))) = .ok [] := rfl
    rw [this, Except.ok.injEq] at h
    subst h
    simp
  | cons kv l ih =>
    intro res h
    simp only [List.mapM_cons, bind, Except.bind] at h
    rcases h1 : f kv with e1 | r
    · simp [h1] at h
    · simp only [h1] at h
      rcases h2 : l.mapM f with e2 | rest
      · simp only [h2] at h
        simp [pure, Except.pure] at h
      · simp only [h2, pure, Except.pure] at h
        rw [Except.ok.injEq] at h
        subst h
        simp only [List.map_cons, ih rest h2, hf kv r h1]

theorem finalize_ok (b : ProofBuilder R G1 G2 GT) (nonce ms : Int) (p : Proof R G1 G2)
    (h : finalize ctx b nonce ms = .ok p) :
    p.aggregated_proof.c_hash =
      ctx.get_hash_as_int (b.tau_list ++ b.c_list ++ [ctx.nonce_bytes nonce]) ∧
    p.aggregated_proof.c_list = b.c_list ∧
    p.proofs.map Prod.fst = b.init_proofs.map Prod.fst := by
  unfold finalize at h
  simp only [bind, Except.bind] at h
  split at h
  · exact absurd h (by simp)
  · next proofs hm =>
    rw [Except.ok.injEq] at h
    subst h
    refine ⟨rfl, rfl, ?_⟩
    refine mapM_subproofs_keys _ ?_ _ _ hm
    intro kv r hkv
    simp only [bind, Except.bind] at hkv
    rcases hpp : finalize_primary_proof ms kv.2.primary_init_proof
        (ctx.get_hash_as_int (b.tau_list ++ b.c_list ++ [ctx.nonce_bytes nonce]))
        kv.2.claim_schema kv.2.claim_values kv.2.sub_proof_request with e2 | pp
    · rw [hpp] at hkv
      exact absurd hkv (by simp)
    · rw [hpp] at hkv
      rw [Except.ok.injEq] at hkv
      rw [← hkv]

/-- C1: for every sequence of successful `add_sub_proof_request` calls on a
fresh builder, `finalize` computes the challenge `c_h` exactly once, as the
hash of all appended `tau_list` byte entries, then all appended `c_list` byte
entries, then the nonce bytes, where the per-call entries appear in call order
(within each call: non-revocation bytes first if present, then primary). -/
theorem C1_finalize_hash_order (m1t nonce ms : Int)
    (calls : List (CallSpec R G1 G2 GT)) (b : ProofBuilder R G1 G2 GT)
    (p : Proof R G1 G2)
    (hrun : run_adds ctx (new_proof_builder m1t) calls = .ok b)
    (hfin : finalize ctx b nonce ms = .ok p) :
    ∃ tbs cbs : List (List (List Nat)),
      calls.mapM (call_tau_bytes ctx m1t) = .ok tbs ∧
      calls.mapM (call_c_bytes ctx m1t) = .ok cbs ∧
      p.aggregated_proof.c_hash =
        ctx.get_hash_as_int (tbs.flatten ++ cbs.flatten ++ [ctx.nonce_bytes nonce]) := by
  obtain ⟨tbs, cbs, htbs, hcbs, hm1, htau, hc⟩ :=
    run_adds_ok ctx calls (new_proof_builder m1t) b hrun
  obtain ⟨hhash, -, -⟩ := finalize_ok ctx b nonce ms p hfin
  refine ⟨tbs, cbs, htbs, hcbs, ?_⟩
  rw [hhash, htau, hc]
  simp [new_proof_builder]

/-- C8 (amended): `finalize` borrows the builder mutably but assigns none of
its fields: after a successful finalize the builder state is unchanged and the
same builder still accepts every further operation. -/
theorem C8_finalize_not_consuming (b : ProofBuilder R G1 G2 GT) (nonce ms : Int)
    (p : Proof R G1 G2) (b2 : ProofBuilder R G1 G2 GT)
    (h : finalize_mut ctx b nonce ms = .ok (p, b2)) :
    b2 = b ∧ finalize ctx b nonce ms = .ok p := by
  unfold finalize_mut at h
  rcases hf : finalize ctx b nonce ms with err | q
  · rw [hf] at h
    simp [Except.map] at h
  · rw [hf] at h
    simp only [Except.map, Except.ok.injEq, Prod.mk.injEq] at h
    exact ⟨h.2.symm, by rw [h.1]⟩

/-- C9: a second successful `add_sub_proof_request` under the same `key_id`
replaces the first call's `InitProof` in the builder's map, but both calls'
`c_list` / `tau_list` bytes are retained; the finalized proof has exactly one
sub-proof under that key while its `c_hash` covers the overwritten call's
bytes. -/
theorem C9_duplicate_key_id (b : ProofBuilder R G1 G2 GT)
    (s1 s2 : CallSpec R G1 G2 GT) (b1 b2 : ProofBuilder R G1 G2 GT)
    (hk : s1.key_id = s2.key_id)
    (h1 : run_add ctx b s1 = .ok b1) (h2 : run_add ctx b1 s2 = .ok b2) :
    ∃ tb1 cb1 tb2 cb2 ip2,
      call_tau_bytes ctx b.m1_tilde s1 = .ok tb1 ∧
      call_c_bytes ctx b.m1_tilde s1 = .ok cb1 ∧
      call_tau_bytes ctx b.m1_tilde s2 = .ok tb2 ∧
      call_c_bytes ctx b.m1_tilde s2 = .ok cb2 ∧
      call_init_proof ctx b.m1_tilde s2 = .ok ip2 ∧
      alist_lookup b2.init_proofs s2.key_id = some ip2 ∧
      alist_lookup b2.init_proofs s1.key_id = some ip2 ∧
      (b2.init_proofs.map Prod.fst).count s2.key_id = 1 ∧
      b2.tau_list = b.tau_list ++ tb1 ++ tb2 ∧
      b2.c_list = b.c_list ++ cb1 ++ cb2 ∧
      (∀ nonce ms p, finalize ctx b2 nonce ms = .ok p →
        p.aggregated_proof.c_hash = ctx.get_hash_as_int
          ((b.tau_list ++ tb1 ++ tb2) ++ (b.c_list ++ cb1 ++ cb2)
            ++ [ctx.nonce_bytes nonce]) ∧
        (p.proofs.map Prod.fst).count s2.key_id = 1) := by
  obtain ⟨tb1, cb1, ip1, htb1, hcb1, hip1, hm11, htau1, hc1, hins1⟩ :=
    run_add_ok ctx b s1 b1 h1
  obtain ⟨tb2, cb2, ip2, htb2, hcb2, hip2, hm12, htau2, hc2, hins2⟩ :=
    run_add_ok ctx b1 s2 b2 h2
  rw [hm11] at htb2 hcb2 hip2
  have hcount : (b2.init_proofs.map Prod.fst).count s2.key_id = 1 := by
    rw [hins2]
    exact alist_insert_count _ _ _
  refine ⟨tb1, cb1, tb2, cb2, ip2, htb1, hcb1, htb2, hcb2, hip2, ?_, ?_, hcount, ?_, ?_, ?_⟩
  · rw [hins2]
    exact alist_lookup_insert _ _ _
  · rw [hk, hins2]
    exact alist_lookup_insert _ _ _
  · rw [htau2, htau1]
  · rw [hc2, hc1]
  · intro nonce ms p hfin
    obtain ⟨hhash, -, hkeys⟩ := finalize_ok ctx b2 nonce ms p hfin
    constructor
    · rw [hhash, htau2, htau1, hc2, hc1]
    · rw [hkeys]
      exact hcount

/-- C10: `add_sub_proof_request` leaves the caller's `ClaimSignature` entirely
unchanged — the source takes it by immutable borrow and performs the §4.3
witness update on a clone — while the stored `NonRevocInitProof` is computed
from the *updated* clone `rc2` (so the advanced witness exists internally but
is not visible to the caller). -/
theorem C10_claim_signature_unchanged (b : ProofBuilder R G1 G2 GT)
    (key_id : String) (claim : ClaimSignature R G1 G2) (cv : ClaimValues)
    (pk : IssuerPublicKey G1 G2) (rr : Option (RevocationRegistryPublic G2 GT))
    (spr : SubProofRequest) (cs : ClaimSchema) (rand : AddRand R)
    (b' : ProofBuilder R G1 G2 GT) (claim_after : ClaimSignature R G1 G2)
    (rc : NonRevocationClaimSignature R G1 G2)
    (rr0 : RevocationRegistryPublic G2 GT) (rpk : IssuerRevocationPublicKey G1 G2)
    (hrc : claim.r_claim = some rc) (hrr : rr = some rr0) (hrk : pk.r_key = some rpk)
    (hok : add_sub_proof_request_mut ctx b key_id claim cv pk rr spr cs rand =
      .ok (b', claim_after)) :
    claim_after = claim ∧
    ∃ rc2 ip,
      update_non_revocation_claim ctx.ord rr0.tails_dash rc rr0.acc = .ok rc2 ∧
      alist_lookup b'.init_proofs key_id = some ip ∧
      ip.non_revoc_init_proof = some
        { c_list_params := gen_c_list_params rc2 rand.nr_c,
          tau_list_params := gen_tau_list_params rand.nr_t,
          c_list := create_c_list_values rc2 (gen_c_list_params rc2 rand.nr_c) rpk,
          tau_list := create_tau_list_values ctx.e rpk rr0.acc
            (gen_tau_list_params rand.nr_t)
            (create_c_list_values rc2 (gen_c_list_params rc2 rand.nr_c) rpk) } := by
  unfold add_sub_proof_request_mut at hok
  rcases ha : add_sub_proof_request ctx b key_id claim cv pk rr spr cs rand
    with err | b2
  · rw [ha] at hok
    simp [Except.map] at hok
  · rw [ha] at hok
    simp only [Except.map, Except.ok.injEq, Prod.mk.injEq] at hok
    obtain ⟨hb2, hclaim⟩ := hok
    subst hb2
    refine ⟨hclaim.symm, ?_⟩
    have hrun : run_add ctx b
        ⟨key_id, claim, cv, pk, rr, spr, cs, rand⟩ = .ok b2 := ha
    obtain ⟨tb, cb, ip, -, -, hip, -, -, -, hins⟩ :=
      run_add_ok ctx b ⟨key_id, claim, cv, pk, rr, spr, cs, rand⟩ b2 hrun
    rcases hu : update_non_revocation_claim ctx.ord rr0.tails_dash rc rr0.acc
      with e3 | rc2
    · simp only [call_init_proof, call_nr, nr_part, hrc, hrr, hrk,
        init_non_revocation_proof, hu, bind, Except.bind] at hip
      exact absurd hip (by simp)
    · simp only [call_init_proof, call_nr, nr_part, hrc, hrr, hrk,
        init_non_revocation_proof, hu, bind, Except.bind, Option.map_some'] at hip
      rcases hpr : init_primary_proof ctx pk.p_key claim.p_claim cv cs spr
          b.m1_tilde (some (ctx.g2bn (gen_tau_list_params rand.nr_t).m2)) rand
        with e4 | prim
      · rw [hpr] at hip
        exact absurd hip (by simp)
      · rw [hpr] at hip
        rw [Except.ok.injEq] at hip
        refine ⟨rc2, ip, rfl, ?_, ?_⟩
        · rw [hins]
          exact alist_lookup_insert _ _ _
        · rw [← hip]

end Builder

/-- An all-zero scalar list, used as the τ-params tape of concrete examples. -/
def zxlist : NonRevocProofXList Int :=
  { rho := 0, r := 0, r_prime := 0, r_prime_prime := 0, r_prime_prime_prime := 0,
    o := 0, o_prime := 0, m := 0, m_prime := 0, t := 0, t_prime := 0, m2 := 0,
    s := 0, c := 0 }

/-- A concrete prover context over `R = G1 = G2 = GT = ℤ` with the integer
pairing and simple serializers/hash, for evaluating the builder on data. -/
def zctx : ProverCtx Int Int Int Int :=
  { e := zpair, ord := fun _ => [2, 3], large_e_start := 2,
    calc_teq := fun _ _ _ _ _ _ _ _ => 0,
    calc_tge := fun _ _ _ _ _ _ => [],
    as_c_list_nr := fun _ => [[1]], as_tau_list_nr := fun _ => [[2]],
    as_c_list_prim := fun _ => [[3]], as_tau_list_prim := fun _ => [[4]],
    g2bn := fun r => r, bn2g := fun n => n,
    get_hash_as_int := fun l => (l.length : Int),
    nonce_bytes := fun n => [n.toNat] }

/-- A fresh builder. -/
def c8b : ProofBuilder Int Int Int Int := new_proof_builder 0

/-- Random tape of the concrete calls. -/
def c8rand : AddRand Int :=
  { nr_c := c7rand, nr_t := zxlist,
    eq := { m2_tilde := 0, r := 0, e_tilde := 0, v_tilde := 0, m_tilde_of := fun _ => 0 },
    ge := fun _ => c3rand }

/-- A concrete primary-only call. -/
def c8spec : CallSpec Int Int Int Int :=
  { key_id := "k",
    claim := { p_claim := { m_2 := 0, a := 1, e := 2, v := 3 }, r_claim := none },
    claim_values := { attrs_values := Smap.empty },
    pub_key := { p_key := c3pk, r_key := none },
    r_reg := none,
    sub_proof_request := { revealed_attrs := ∅, predicates := [] },
    claim_schema := { attrs := ∅ },
    rand := c8rand }

/-- The proof the fresh builder finalizes to. -/
def c8proof : Proof Int Int Int := (finalize zctx c8b 7 5).toOption.get (by decide)

/-- The builder after adding `c8spec` to the fresh builder. -/
def c8b2 : ProofBuilder Int Int Int Int := (run_add zctx c8b c8spec).toOption.get (by decide)

/-- C8 counterexample: a successful `finalize` hands the builder back unchanged
(`&mut self`, no field assignments), after which a further
`add_sub_proof_request` and a further `finalize` on the same builder state both
succeed — the builder is not consumed. -/
theorem C8_finalize_consumes_counterexample :
    finalize_mut zctx c8b 7 5 = .ok (c8proof, c8b) ∧
    run_add zctx c8b c8spec = .ok c8b2 ∧
    finalize zctx c8b 7 5 = .ok c8proof :=
  ⟨rfl, rfl, rfl⟩

/-- Witness for the amended C8 at the concrete data above. -/
theorem C8_finalize_not_consuming_witness :
    finalize_mut zctx c8b 7 5 = .ok (c8proof, c8b) ∧
    (c8b = c8b ∧ finalize zctx c8b 7 5 = .ok c8proof) :=
  ⟨rfl, C8_finalize_not_consuming zctx c8b 7 5 c8proof c8b rfl⟩

/-- The builder after running the single concrete call on a fresh builder. -/
def c1b : ProofBuilder Int Int Int Int :=
  (run_adds zctx (new_proof_builder 0) [c8spec]).toOption.get (by decide)

/-- Its finalized proof. -/
def c1p : Proof Int Int Int := (finalize zctx c1b 7 5).toOption.get (by decide)

/-- Witness for C1 at one concrete call. -/
theorem C1_finalize_hash_order_witness :
    run_adds zctx (new_proof_builder 0) [c8spec] = .ok c1b ∧
    finalize zctx c1b 7 5 = .ok c1p ∧
    ∃ tbs cbs : List (List (List Nat)),
      [c8spec].mapM (call_tau_bytes zctx 0) = .ok tbs ∧
      [c8spec].mapM (call_c_bytes zctx 0) = .ok cbs ∧
      c1p.aggregated_proof.c_hash =
        zctx.get_hash_as_int (tbs.flatten ++ cbs.flatten ++ [zctx.nonce_bytes 7]) :=
  ⟨rfl, rfl, C1_finalize_hash_order zctx 0 7 5 [c8spec] c1b c1p rfl rfl⟩

/-- The builder after adding `c8spec` twice (same `key_id`). -/
def c9b2 : ProofBuilder Int Int Int Int :=
  (run_add zctx c8b2 c8spec).toOption.get (by decide)

/-- Witness for C9: the same key added twice. -/
theorem C9_duplicate_key_id_witness :
    run_add zctx c8b c8spec = .ok c8b2 ∧
    run_add zctx c8b2 c8spec = .ok c9b2 ∧
    (∃ tb1 cb1 tb2 cb2 ip2,
      call_tau_bytes zctx c8b.m1_tilde c8spec = .ok tb1 ∧
      call_c_bytes zctx c8b.m1_tilde c8spec = .ok cb1 ∧
      call_tau_bytes zctx c8b.m1_tilde c8spec = .ok tb2 ∧
      call_c_bytes zctx c8b.m1_tilde c8spec = .ok cb2 ∧
      call_init_proof zctx c8b.m1_tilde c8spec = .ok ip2 ∧
      alist_lookup c9b2.init_proofs c8spec.key_id = some ip2 ∧
      alist_lookup c9b2.init_proofs c8spec.key_id = some ip2 ∧
      (c9b2.init_proofs.map Prod.fst).count c8spec.key_id = 1 ∧
      c9b2.tau_list = c8b.tau_list ++ tb1 ++ tb2 ∧
      c9b2.c_list = c8b.c_list ++ cb1 ++ cb2 ∧
      (∀ nonce ms p, finalize zctx c9b2 nonce ms = .ok p →
        p.aggregated_proof.c_hash = zctx.get_hash_as_int
          ((c8b.tau_list ++ tb1 ++ tb2) ++ (c8b.c_list ++ cb1 ++ cb2)
            ++ [zctx.nonce_bytes nonce]) ∧
        (p.proofs.map Prod.fst).count c8spec.key_id = 1)) :=
  ⟨rfl, rfl, C9_duplicate_key_id zctx c8b c8spec c8spec c8b2 c9b2 rfl rfl rfl⟩

/-- Revocation registry of the C10 witness: index 1 unrevoked, tails `k ↦ k`. -/
def c10rr : RevocationRegistryPublic Int Int :=
  { acc := { acc := 0, v := {1}, max_claim_num := 5 }, key := { z := 0 },
    tails_dash := fun k => some (k : Int) }

/-- Claim signature with the revocation part `c5claim` (old witness set
`{1,2,3}`, old omega `100`). -/
def c10claim : ClaimSignature Int Int Int :=
  { p_claim := { m_2 := 0, a := 1, e := 2, v := 3 }, r_claim := some c5claim }

/-- Issuer key with a revocation part. -/
def c10pk : IssuerPublicKey Int Int := { p_key := c3pk, r_key := some c7pk }

/-- Result of the revocation-carrying call (builder and caller-visible claim). -/
def c10res : ProofBuilder Int Int Int Int × ClaimSignature Int Int Int :=
  (add_sub_proof_request_mut zctx c8b "k" c10claim { attrs_values := Smap.empty }
    c10pk (some c10rr) { revealed_attrs := ∅, predicates := [] } { attrs := ∅ }
    c8rand).toOption.get (by decide)

/-- The updated clone the call computed internally. -/
def c10rc2 : NonRevocationClaimSignature Int Int Int :=
  (update_non_revocation_claim zctx.ord c10rr.tails_dash c5claim
    c10rr.acc).toOption.get (by decide)

/-- Witness for C10: the call succeeds, the caller's claim is returned
unchanged (old witness omega 100, old set `{1,2,3}`), while the stored init
proof was computed from the updated clone, whose omega is 96 and set `{1}`. -/
theorem C10_claim_signature_unchanged_witness :
    c10claim.r_claim = some c5claim ∧
    c10pk.r_key = some c7pk ∧
    add_sub_proof_request_mut zctx c8b "k" c10claim { attrs_values := Smap.empty }
      c10pk (some c10rr) { revealed_attrs := ∅, predicates := [] } { attrs := ∅ }
      c8rand = .ok (c10res.1, c10res.2) ∧
    (c10res.2 = c10claim ∧
    ∃ rc2 ip,
      update_non_revocation_claim zctx.ord c10rr.tails_dash c5claim c10rr.acc = .ok rc2 ∧
      alist_lookup c10res.1.init_proofs "k" = some ip ∧
      ip.non_revoc_init_proof = some
        { c_list_params := gen_c_list_params rc2 c8rand.nr_c,
          tau_list_params := gen_tau_list_params c8rand.nr_t,
          c_list := create_c_list_values rc2 (gen_c_list_params rc2 c8rand.nr_c) c7pk,
          tau_list := create_tau_list_values zctx.e c7pk c10rr.acc
            (gen_tau_list_params c8rand.nr_t)
            (create_c_list_values rc2 (gen_c_list_params rc2 c8rand.nr_c) c7pk) }) ∧
    update_non_revocation_claim zctx.ord c10rr.tails_dash c5claim c10rr.acc = .ok c10rc2 ∧
    c10rc2.witness.omega = 96 ∧ c10rc2.witness.v = {1} ∧
    c5claim.witness.omega = 100 ∧ c5claim.witness.v = {1, 2, 3} :=
  ⟨rfl, rfl, rfl,
    C10_claim_signature_unchanged zctx c8b "k" c10claim { attrs_values := Smap.empty }
      c10pk (some c10rr) { revealed_attrs := ∅, predicates := [] } { attrs := ∅ }
      c8rand c10res.1 c10res.2 c5claim c10rr c7pk rfl rfl rfl rfl,
    rfl, by decide, by decide, rfl, rfl⟩
